import Mathlib

/-!
Verification development for the BusControl transit-simulation core.

This file gives a shallow embedding, in Lean 4, of the simulation runtime of
the BusControl repository: the entity/component store
(`EntityManagerService.ts`), the fixed-timestep scheduler
(`GameLoopService.ts`), the vehicle state machine and motion
(`BusLogicSystem.ts`, `BusMovementSystem.ts`), the rider spawn process
(`NPCSpawnerSystem.ts`) and the boarding/alighting transaction
(`NPCInteractionSystem.ts`), together with theorems settling the stated
properties of that runtime.

Modelling conventions:
* JavaScript numbers are modelled as `ℚ` where they undergo continuous
  arithmetic (positions, timers, speeds) and as `Int` where they are counters
  or indices (`passengers`, `capacity`, `waitingPassengers`,
  `currentStopIndex`).  `Math.sqrt` and `Math.atan2` are passed in as an
  explicit `JsMath` record of function parameters; nothing in the proofs
  depends on their values beyond what the source guards give.
* The `-1` sentinel returned by `EntityManagerService.createEntity` at the
  entity ceiling is modelled as `none`.
* Module-level mutable state of the systems (the spawner's `spawnTimers`
  map, the movement system's `routeCache`/`stopCache`) is carried explicitly
  in the `World` record, next to the entity store it lives beside.
* JavaScript `Map` objects (insertion-ordered, unique keys) are modelled as
  association lists where `mapSet` overwrites in place.
* Reading an absent object property yields `undefined`, modelled as `none`.
  This matters for `NPCInteractionSystem.ts:100`, which reads
  `npcData.targetStopId` although the `npc_data` component literal created in
  `NPCSpawnerSystem.ts:138-145` has no such key (the destination is stored on
  the `npc_position` component instead); the `NPCDataComponent` record below
  therefore carries a `targetStopId` field that creation leaves `none` and
  that no system ever writes.
* `setTimeout`-delayed entity destruction and `console` logging are external
  effects outside the per-tick store transition and are omitted; event-bus
  publications are recorded in an `events` list.
-/

namespace BusControl

set_option maxRecDepth 4000

/-- Opaque stand-ins for `Math.sqrt` and `Math.atan2`.  The source only ever
takes square roots of expressions its guards keep non-negative, which is part
of what is proved below. -/
structure JsMath where
  sqrt : ℚ → ℚ
  atan2 : ℚ → ℚ → ℚ

/-- Time-of-day period, the external read-only signal from
`features/time-of-day` consumed by the spawner. -/
inductive TimePeriod where
  | morning
  | day
  | evening
  | night
deriving DecidableEq

/-- Per-period spawn intervals (`SpawnRates` in `StopComponents.ts`). -/
structure SpawnRates where
  morning : ℚ
  day : ℚ
  evening : ℚ
  night : ℚ
deriving DecidableEq

/-- Indexing `spawnRates[currentPeriod]`. -/
def SpawnRates.get (s : SpawnRates) : TimePeriod → ℚ
  | TimePeriod.morning => s.morning
  | TimePeriod.day => s.day
  | TimePeriod.evening => s.evening
  | TimePeriod.night => s.night

/-- JavaScript `x || d` on numbers: `0` is falsy and selects the default.
Used for `stopData.spawnRates[currentPeriod] || 5.0`
(`NPCSpawnerSystem.ts:78`). -/
def jsOr (x d : ℚ) : ℚ := if x = 0 then d else x

/-- JavaScript array indexing `xs[i]` with an `Int` index: out-of-range or
negative indices yield `undefined` (`none`). -/
def jsIndex (xs : List String) (i : Int) : Option String :=
  if 0 ≤ i then xs[i.toNat]? else none

/-- Bus state enumeration (`BusState` in `BusComponents.ts`). -/
inductive BusState where
  | idle
  | movingToStop
  | stopped
  | returning
deriving DecidableEq

/-- Rider state enumeration (`NPCState` in `NPCComponents.ts`). -/
inductive NPCState where
  | waiting
  | boarding
  | onBus
  | alighting
  | arrived
deriving DecidableEq

/-- The `bus_position` component. -/
structure BusPositionComponent where
  x : ℚ
  y : ℚ
  rotation : ℚ
deriving DecidableEq

/-- The `bus_velocity` component. -/
structure BusVelocityComponent where
  speed : ℚ
  maxSpeed : ℚ
  acceleration : ℚ
  isMoving : Bool
deriving DecidableEq

/-- The `bus_data` component. -/
structure BusDataComponent where
  id : String
  routeId : Option String
  currentStopIndex : Int
  state : BusState
  capacity : Int
  passengers : Int
  color : String
  waitTimer : ℚ
  waitTimeRequired : ℚ
deriving DecidableEq

/-- The `npc_position` component.  This is where `spawnNPC` stores the
rider's destination (`NPCSpawnerSystem.ts:132-136`). -/
structure NPCPositionComponent where
  x : ℚ
  y : ℚ
  targetStopId : Option String
deriving DecidableEq

/-- The `npc_data` component.  The `targetStopId` field records the absent
`targetStopId` key of the object literal built in `NPCSpawnerSystem.ts:138`:
no code path ever writes it, so it is `none` on every rider, and the read of
`npcData.targetStopId` in `NPCInteractionSystem.ts:100` observes `undefined`. -/
structure NPCDataComponent where
  id : String
  state : NPCState
  currentStopId : Option String
  busEntityId : Option Nat
  targetStopId : Option String
  patience : ℚ
  spawnTime : ℚ
deriving DecidableEq

/-- The `stop_position` component. -/
structure StopPositionComponent where
  x : ℚ
  y : ℚ
deriving DecidableEq

/-- The `stop_data` component (revision with `spawnRates`, as loaded from the
preset maps). -/
structure StopDataComponent where
  id : String
  name : String
  radius : ℚ
  color : String
  waitingPassengers : Int
  spawnRates : SpawnRates
deriving DecidableEq

/-- The `route_data` component. -/
structure RouteDataComponent where
  id : String
  name : String
  stopIds : List String
  color : String
  isActive : Bool
  loop : Bool
deriving DecidableEq

/-- Events published on the `GameEventBusService` by the embedded systems. -/
inductive GameEvent where
  | npcArrivedAtDestination (npcId stopId : String)
  | npcBoardedBus (npcId busId stopId : String)
  | busCreated (busId : String) (entityId : Nat)
deriving DecidableEq

/-- One entity of the store: its id together with its (at most one per tag)
components.  The string-tagged component maps of `EntityManagerService` are
specialised to the fixed set of tags the simulation uses. -/
structure Entity where
  eid : Nat
  busPos : Option BusPositionComponent := none
  busVel : Option BusVelocityComponent := none
  busData : Option BusDataComponent := none
  npcPos : Option NPCPositionComponent := none
  npcData : Option NPCDataComponent := none
  stopPos : Option StopPositionComponent := none
  stopData : Option StopDataComponent := none
  routeData : Option RouteDataComponent := none
deriving DecidableEq

/-- A fresh entity with no components (`createEntity` attaches an empty
component map). -/
def Entity.empty (eid : Nat) : Entity := { eid := eid }

/-- The simulation state: the entity store of `EntityManagerService`
(`nextEntityId`, the entity set in insertion order, the `maxEntities`
ceiling, the `isInitialized` flag), the spawner's module-level `spawnTimers`
map, the movement system's module-level `routeCache`/`stopCache`, and the
event-bus history. -/
structure World where
  nextEntityId : Nat
  maxEntities : Nat
  isInitialized : Bool
  entities : List Entity
  spawnTimers : List (String × ℚ)
  routeCache : Option (List (String × RouteDataComponent))
  stopCache : Option (List (String × StopPositionComponent))
  events : List GameEvent
deriving DecidableEq

/-- Lookup in an insertion-ordered map (`Map.get`). -/
def mapGet {α : Type} (m : List (String × α)) (k : String) : Option α :=
  (m.find? (fun p => p.fst = k)).map Prod.snd

/-- Update in an insertion-ordered map (`Map.set`): overwrite the existing
entry in place, else append. -/
def mapSet {α : Type} : List (String × α) → String → α → List (String × α)
  | [], k, v => [(k, v)]
  | p :: rest, k, v =>
    if p.fst = k then (k, v) :: rest else p :: mapSet rest k v

/-- One draw from the `Math.random` input stream (a `0` default past the end
of the supplied stream). -/
def draw : List ℚ → ℚ × List ℚ
  | [] => (0, [])
  | r :: rest => (r, rest)

/-- The entity with a given id (`entities` is keyed by unique ids in the
source; here the first match in insertion order). -/
def getEntity (w : World) (eid : Nat) : Option Entity :=
  w.entities.find? (fun e => e.eid = eid)

/-- Component getters, mirroring `getComponent(entityId, tag)`. -/
def getBusPos (w : World) (eid : Nat) : Option BusPositionComponent :=
  (getEntity w eid).bind (fun e => e.busPos)

def getBusVel (w : World) (eid : Nat) : Option BusVelocityComponent :=
  (getEntity w eid).bind (fun e => e.busVel)

def getBusData (w : World) (eid : Nat) : Option BusDataComponent :=
  (getEntity w eid).bind (fun e => e.busData)

def getNpcPos (w : World) (eid : Nat) : Option NPCPositionComponent :=
  (getEntity w eid).bind (fun e => e.npcPos)

def getNpcData (w : World) (eid : Nat) : Option NPCDataComponent :=
  (getEntity w eid).bind (fun e => e.npcData)

def getStopPos (w : World) (eid : Nat) : Option StopPositionComponent :=
  (getEntity w eid).bind (fun e => e.stopPos)

def getStopData (w : World) (eid : Nat) : Option StopDataComponent :=
  (getEntity w eid).bind (fun e => e.stopData)

/-- Mutation of the component record held by the entity with a given id
(writing through the live component reference). -/
def mapEntity (w : World) (eid : Nat) (f : Entity → Entity) : World :=
  { w with entities :=
      w.entities.map (fun e => if e.eid = eid then f e else e) }

/-- Component setters: writing through the live component reference mutates
the component held by the entity with that id. -/
def setBusPos (w : World) (eid : Nat) (v : BusPositionComponent) : World :=
  mapEntity w eid (fun e => { e with busPos := some v })

def setBusVel (w : World) (eid : Nat) (v : BusVelocityComponent) : World :=
  mapEntity w eid (fun e => { e with busVel := some v })

def setBusData (w : World) (eid : Nat) (v : BusDataComponent) : World :=
  mapEntity w eid (fun e => { e with busData := some v })

def setNpcPos (w : World) (eid : Nat) (v : NPCPositionComponent) : World :=
  mapEntity w eid (fun e => { e with npcPos := some v })

def setNpcData (w : World) (eid : Nat) (v : NPCDataComponent) : World :=
  mapEntity w eid (fun e => { e with npcData := some v })

def setStopData (w : World) (eid : Nat) (v : StopDataComponent) : World :=
  mapEntity w eid (fun e => { e with stopData := some v })

/-- Appending an event to the bus history (`publish`). -/
def pushEvent (w : World) (ev : GameEvent) : World :=
  { w with events := w.events ++ [ev] }

/-- The route components present in the store, in entity insertion order
(the scan `getEntitiesWithComponents(ROUTE_COMPONENTS.DATA)` followed by
`getComponent`). -/
def World.routes (w : World) : List RouteDataComponent :=
  w.entities.filterMap (fun e => e.routeData)

/-- First route whose logical id matches (the scan-with-break used by
`advanceToNextStop` and `isFinalStopForRoute`). -/
def findRouteById (w : World) (rid : String) : Option RouteDataComponent :=
  w.routes.find? (fun r => r.id = rid)

/-- Embeds `createEntity` (`EntityManagerService.ts:110-121`): at the
`maxEntities` ceiling the `-1` sentinel (`none`) is returned and the store is
untouched; otherwise the next id is allocated and an empty component map is
attached. -/
def createEntity (w : World) : Option Nat × World :=
  if w.maxEntities ≤ w.entities.length then (none, w)
  else
    (some w.nextEntityId,
     { w with
        nextEntityId := w.nextEntityId + 1,
        entities := w.entities ++ [Entity.empty w.nextEntityId] })

/-- Embeds the component literals of `createBusOnRoute`
(`MapEditorService.ts:251-290`): position at the route's first stop,
velocity at rest, data bound to the route at stop index `0` in `IDLE`. -/
def createBusOnRoute (routeId busId : String) (startX startY : ℚ) :
    BusPositionComponent × BusVelocityComponent × BusDataComponent :=
  ({ x := startX, y := startY, rotation := 0 },
   { speed := 0, maxSpeed := 150, acceleration := 50, isMoving := false },
   { id := busId, routeId := some routeId, currentStopIndex := 0,
     state := BusState.idle, capacity := 20, passengers := 0,
     color := "#ffcc00", waitTimer := 0, waitTimeRequired := 3 })

/-- Embeds `advanceToNextStop` (`BusLogicSystem.ts:41-83`): resolve the
route, pre-increment the stop index, wrap to `0` on a looping route past the
end, clamp to the last index and settle into `IDLE` on a non-looping one,
otherwise enter `MOVING_TO_STOP` with zeroed speed. -/
def advanceToNextStop (w : World) (data : BusDataComponent)
    (vel : BusVelocityComponent) : BusDataComponent × BusVelocityComponent :=
  match data.routeId with
  | none => ({ data with state := BusState.idle }, vel)
  | some rid =>
    let found := findRouteById w rid
    let routeLen : Int := match found with
      | some r => (r.stopIds.length : Int)
      | none => 0
    let isLoop : Bool := match found with
      | some r => r.loop
      | none => false
    if routeLen = 0 then ({ data with state := BusState.idle }, vel)
    else
      let data := { data with currentStopIndex := data.currentStopIndex + 1 }
      if routeLen ≤ data.currentStopIndex then
        if isLoop then
          ({ data with currentStopIndex := 0, state := BusState.movingToStop },
           { vel with isMoving := true, speed := 0 })
        else
          ({ data with currentStopIndex := routeLen - 1, state := BusState.idle },
           { vel with isMoving := false })
      else
        ({ data with state := BusState.movingToStop },
         { vel with isMoving := true, speed := 0 })

/-- One entity's step of `busLogicSystem.update` (`BusLogicSystem.ts:16-38`):
count the dwell timer down while `STOPPED` and advance at `≤ 0`; dispatch an
`IDLE` bus that has a route. -/
def busLogicProcess (dt : ℚ) (w : World) (eid : Nat) : World :=
  match getBusData w eid, getBusVel w eid with
  | some data, some vel =>
    if data.state = BusState.stopped then
      let data := { data with waitTimer := data.waitTimer - dt }
      if data.waitTimer ≤ 0 then
        let p := advanceToNextStop w data vel
        setBusVel (setBusData w eid p.1) eid p.2
      else setBusData w eid data
    else if data.state = BusState.idle ∧ data.routeId.isSome then
      let p := advanceToNextStop w data vel
      setBusVel (setBusData w eid p.1) eid p.2
    else w
  | _, _ => w

/-- Whole-store step of the bus logic system: the matching entity list
(`bus_data` and `bus_velocity`) is computed before the loop, as
`updateSystems` does. -/
def busLogicUpdate (dt : ℚ) (w : World) : World :=
  let ids := (w.entities.filter (fun e => e.busData.isSome && e.busVel.isSome)).map
    (fun e => e.eid)
  ids.foldl (busLogicProcess dt) w

/-- Fixed-step catch-up loop of `GameLoopService.loop`
(`GameLoopService.ts:167-175`): while the accumulator holds at least one
fixed step and the per-frame ceiling is not yet reached, run the logic
cadence with exactly the fixed step.  The returned list holds the `deltaTime`
of each logic invocation in order; the fuel argument is the remaining
allowance `maxUpdatesPerFrame - updatesCount`. -/
def catchUpAux (fixedTimeStep : ℚ) : ℚ → Nat → ℚ × List ℚ
  | acc, 0 => (acc, [])
  | acc, fuel + 1 =>
    if fixedTimeStep ≤ acc then
      let p := catchUpAux fixedTimeStep (acc - fixedTimeStep) fuel
      (p.1, fixedTimeStep :: p.2)
    else (acc, [])

/-- Result of one un-paused frame of the scheduler. -/
structure FrameResult where
  accumulator : ℚ
  logicDeltas : List ℚ
  renderDelta : ℚ
deriving DecidableEq

/-- Embeds one un-paused pass of `GameLoopService.loop`
(`GameLoopService.ts:143-189`): clamp the raw elapsed time at `0.25 s`,
accumulate, run the fixed-step catch-up bounded by `maxUpdatesPerFrame`, hand
the presentation cadence the clamped elapsed time, and — the spiral-of-death
guard — reset the accumulator to `0` whenever the ceiling was reached. -/
def gameLoopFrame (fixedTimeStep : ℚ) (maxUpdatesPerFrame : Nat)
    (accumulator rawDelta : ℚ) : FrameResult :=
  let deltaTime := if 1/4 < rawDelta then 1/4 else rawDelta
  let acc := accumulator + deltaTime
  let p := catchUpAux fixedTimeStep acc maxUpdatesPerFrame
  let accFinal := if maxUpdatesPerFrame ≤ p.2.length then 0 else p.1
  { accumulator := accFinal, logicDeltas := p.2, renderDelta := deltaTime }

/-- Lazy build of the movement system's route cache
(`BusMovementSystem.ts:113-122`): every `route_data` component, keyed by its
logical id; a later entity with a duplicate id overwrites. -/
def buildRouteCache (w : World) : List (String × RouteDataComponent) :=
  w.entities.foldl
    (fun m e => match e.routeData with
      | some r => mapSet m r.id r
      | none => m) []

/-- Lazy build of the movement system's stop-position cache
(`BusMovementSystem.ts:142-154`). -/
def buildStopCache (w : World) : List (String × StopPositionComponent) :=
  w.entities.foldl
    (fun m e => match e.stopData, e.stopPos with
      | some sd, some sp => mapSet m sd.id sp
      | _, _ => m) []

/-- Embeds `getTargetStopPosition` (`BusMovementSystem.ts:109-157`),
including the lazy cache initialisation it performs on the module state.  An
index at or past the route length recurses once with index `0` when the
route loops (the source's self-call; on an empty looping route that self-call
diverges in the source — unreachable, routes are created with at least two
stops — and yields `none` here). -/
def getTargetStopPosition (w : World) (routeId : Option String)
    (stopIndex : Int) : Option StopPositionComponent × World :=
  match routeId with
  | none => (none, w)
  | some rid =>
    let rc := match w.routeCache with
      | some c => c
      | none => buildRouteCache w
    let w := { w with routeCache := some rc }
    match mapGet rc rid with
    | none => (none, w)
    | some routeData =>
      let resolve := fun (w : World) (idx : Int) =>
        (let sc := match w.stopCache with
          | some c => c
          | none => buildStopCache w
         let w := { w with stopCache := some sc }
         match jsIndex routeData.stopIds idx with
         | none => (none, w)
         | some sid => (mapGet sc sid, w))
      if (routeData.stopIds.length : Int) ≤ stopIndex then
        if routeData.loop then
          if (routeData.stopIds.length : Int) ≤ 0 then (none, w)
          else resolve w 0
        else (none, w)
      else resolve w stopIndex

/-- The acceleration/braking speed computation of `busMovementSystem.update`
(`BusMovementSystem.ts:75-93`), reached only past the `distance < 10` arrival
check: inside braking distance plus a 10-pixel margin the candidate speed is
`sqrt(2·a·max(0, distance − 10))` and the result is clamped into
`[0, current speed]`; otherwise accelerate toward `maxSpeed`. -/
def movementSpeedUpdate (m : JsMath) (vel : BusVelocityComponent)
    (distance dt : ℚ) : ℚ :=
  let brakingDistance := vel.speed * vel.speed / (2 * vel.acceleration)
  let brakingStartDistance := brakingDistance + 10
  if distance < brakingStartDistance then
    let safeDistance := max 0 (distance - 10)
    let targetSpeed := m.sqrt (2 * vel.acceleration * safeDistance)
    max 0 (min vel.speed targetSpeed)
  else
    if vel.speed < vel.maxSpeed then
      let s := vel.speed + vel.acceleration * dt
      if vel.maxSpeed < s then vel.maxSpeed else s
    else vel.speed

/-- One entity's step of `busMovementSystem.update`
(`BusMovementSystem.ts:29-103`): only `MOVING_TO_STOP` buses move; an
unresolvable target fails soft into `IDLE`; within the 10-pixel arrival
radius the bus snaps to the stop, zeroes its velocity and enters `STOPPED`
with the dwell timer armed; otherwise the speed is updated and the position
advanced along the normalised direction. -/
def busMovementProcess (m : JsMath) (dt : ℚ) (w : World) (eid : Nat) : World :=
  match getBusPos w eid, getBusVel w eid, getBusData w eid with
  | some pos, some vel, some data =>
    if data.state = BusState.movingToStop then
      let tp := getTargetStopPosition w data.routeId data.currentStopIndex
      let w := tp.2
      match tp.1 with
      | none =>
        setBusVel (setBusData w eid { data with state := BusState.idle }) eid
          { vel with isMoving := false, speed := 0 }
      | some targetStopPos =>
        let dx := targetStopPos.x - pos.x
        let dy := targetStopPos.y - pos.y
        let distance := m.sqrt (dx * dx + dy * dy)
        if distance < 10 then
          let w := setBusPos w eid { pos with x := targetStopPos.x, y := targetStopPos.y }
          let w := setBusData w eid
            { data with state := BusState.stopped, waitTimer := data.waitTimeRequired }
          setBusVel w eid { vel with isMoving := false, speed := 0 }
        else
          let moveX := dx / distance
          let moveY := dy / distance
          let newSpeed := movementSpeedUpdate m vel distance dt
          let w := setBusVel w eid { vel with speed := newSpeed }
          setBusPos w eid
            { pos with
                x := pos.x + moveX * newSpeed * dt,
                y := pos.y + moveY * newSpeed * dt,
                rotation := m.atan2 dy dx }
    else w
  | _, _, _ => w

/-- Whole-store step of the bus movement system (matching set: `bus_position`,
`bus_velocity`, `bus_data`). -/
def busMovementUpdate (m : JsMath) (dt : ℚ) (w : World) : World :=
  let ids := (w.entities.filter
    (fun e => e.busPos.isSome && e.busVel.isSome && e.busData.isSome)).map
    (fun e => e.eid)
  ids.foldl (busMovementProcess m dt) w

/-- Embeds `getCurrentStopId` (`NPCInteractionSystem.ts:49-62`): scan the
routes for the bus's route id, and return that route's stop id at the
current index as soon as a matching route admits the index. -/
def getCurrentStopId (w : World) (busData : BusDataComponent) : Option String :=
  match busData.routeId with
  | none => none
  | some rid =>
    match (w.routes.filter
      (fun r => r.id = rid && busData.currentStopIndex < (r.stopIds.length : Int))).head? with
    | some r => jsIndex r.stopIds busData.currentStopIndex
    | none => none

/-- Embeds `isFinalStopForRoute` (`NPCInteractionSystem.ts:67-79`): on the
first route matching the bus's route id, whether the current index is at the
last stop (or beyond) of a non-looping route. -/
def isFinalStopForRoute (w : World) (busData : BusDataComponent) : Bool :=
  match busData.routeId with
  | none => false
  | some rid =>
    match findRouteById w rid with
    | some r =>
      decide ((r.stopIds.length : Int) - 1 ≤ busData.currentStopIndex) && !r.loop
    | none => false

/-- The alighting condition of `unloadPassengers`
(`NPCInteractionSystem.ts:98-100`): the rider is aboard this bus, and either
the stop is the route's non-looping terminus or the rider's
`npcData.targetStopId` — the never-written DATA-component key, hence
`undefined` — equals the stop id. -/
def alightsHere (busEid : Nat) (isFinal : Bool) (stopId : String)
    (e : Entity) : Bool :=
  match e.npcData, e.npcPos with
  | some nd, some _ =>
    nd.state = NPCState.onBus && nd.busEntityId = some busEid &&
      (isFinal || nd.targetStopId = some stopId)
  | _, _ => false

/-- The per-rider mutation of `unloadPassengers`
(`NPCInteractionSystem.ts:102-114`): transition to `ARRIVED`, clear the
vehicle back-reference, record the stop, nudge the rider 10 pixels aside.
The 500 ms delayed entity destruction is an external effect. -/
def unloadEntity (busEid : Nat) (isFinal : Bool) (stopId : String)
    (e : Entity) : Entity :=
  if alightsHere busEid isFinal stopId e then
    match e.npcData, e.npcPos with
    | some nd, some np =>
      { e with
          npcData := some { nd with
            state := NPCState.arrived, busEntityId := none,
            currentStopId := some stopId },
          npcPos := some { np with x := np.x + 10 } }
    | _, _ => e
  else e

/-- Embeds `unloadPassengers` (`NPCInteractionSystem.ts:84-131`): every rider
aboard this bus whose alighting condition holds is unloaded and a delivery
event published per rider; afterwards, if at least one rider alighted, the
bus's `passengers` counter is set to `0` (`NPCInteractionSystem.ts:128`) —
not decremented per alighted rider. -/
def unloadPassengers (w : World) (busEid : Nat) (busData : BusDataComponent)
    (stopId : String) : World × BusDataComponent :=
  let isFinal := isFinalStopForRoute w busData
  let unloadedCount := w.entities.countP (fun e => alightsHere busEid isFinal stopId e)
  let evs := w.entities.filterMap (fun e =>
    if alightsHere busEid isFinal stopId e then
      match e.npcData with
      | some nd => some (GameEvent.npcArrivedAtDestination nd.id stopId)
      | none => none
    else none)
  let w := { w with
    entities := w.entities.map (unloadEntity busEid isFinal stopId),
    events := w.events ++ evs }
  if 0 < unloadedCount then (w, { busData with passengers := 0 })
  else (w, busData)

/-- Embeds `updateStopQueue` (`NPCInteractionSystem.ts:189-198`): the first
stop component with the given logical id gets `max 0 (waitingPassengers +
delta)` and the scan breaks. -/
def updateStopQueueEntities (stopId : String) (delta : Int) :
    List Entity → List Entity
  | [] => []
  | e :: rest =>
    match e.stopData with
    | some sd =>
      if sd.id = stopId then
        { e with stopData := some { sd with
            waitingPassengers := max 0 (sd.waitingPassengers + delta) } } :: rest
      else e :: updateStopQueueEntities stopId delta rest
    | none => e :: updateStopQueueEntities stopId delta rest

def updateStopQueue (w : World) (stopId : String) (delta : Int) : World :=
  { w with entities := updateStopQueueEntities stopId delta w.entities }

/-- The boarding loop of `loadPassengers` (`NPCInteractionSystem.ts:144-179`)
over the pre-computed rider entity list: stop (`break`) once occupancy
reaches capacity; each `WAITING` rider at this stop transitions to
`ON_VEHICLE` with the back-reference set, occupancy incremented, the stop
queue decremented, the rider teleported onto the bus, and a boarding event
published. -/
def loadLoop (busEid : Nat) (stopId : String) :
    List Nat → World → BusDataComponent → World × BusDataComponent
  | [], w, busData => (w, busData)
  | npcId :: rest, w, busData =>
    if busData.capacity ≤ busData.passengers then (w, busData)
    else
      match getNpcData w npcId, getNpcPos w npcId with
      | some npcData, some npcPos =>
        if npcData.state = NPCState.waiting ∧ npcData.currentStopId = some stopId then
          let w := setNpcData w npcId
            { npcData with state := NPCState.onBus, busEntityId := some busEid }
          let busData := { busData with passengers := busData.passengers + 1 }
          let w := updateStopQueue w stopId (-1)
          let w := match getBusPos w busEid with
            | some busPos => setNpcPos w npcId { npcPos with x := busPos.x, y := busPos.y }
            | none => w
          let w := pushEvent w (GameEvent.npcBoardedBus npcData.id busData.id stopId)
          loadLoop busEid stopId rest w busData
        else loadLoop busEid stopId rest w busData
      | _, _ => loadLoop busEid stopId rest w busData

/-- Embeds `loadPassengers` (`NPCInteractionSystem.ts:136-184`): a no-op on a
full bus, otherwise the boarding loop over the riders holding both `npc_data`
and `npc_position`. -/
def loadPassengers (w : World) (busEid : Nat) (busData : BusDataComponent)
    (stopId : String) : World × BusDataComponent :=
  if busData.capacity ≤ busData.passengers then (w, busData)
  else
    let allNpcs := (w.entities.filter
      (fun e => e.npcData.isSome && e.npcPos.isSome)).map (fun e => e.eid)
    loadLoop busEid stopId allNpcs w busData

/-- One bus's step of `npcInteractionSystem.update`
(`NPCInteractionSystem.ts:19-43`): only `STOPPED` buses with a resolvable
current stop act; riders alight, then — never at a non-looping terminus —
riders board; the bus data reference's mutations are written back. -/
def npcInteractionProcess (w : World) (busEid : Nat) : World :=
  match getBusData w busEid with
  | some busData =>
    if busData.state = BusState.stopped then
      match getCurrentStopId w busData with
      | some stopId =>
        let isFinal := isFinalStopForRoute w busData
        let p := unloadPassengers w busEid busData stopId
        let q := if isFinal then p else loadPassengers p.1 busEid p.2 stopId
        setBusData q.1 busEid q.2
      | none => w
    else w
  | none => w

/-- Whole-store step of the boarding/alighting system (matching set:
`bus_data`). -/
def npcInteractionUpdate (w : World) : World :=
  let ids := (w.entities.filter (fun e => e.busData.isSome)).map (fun e => e.eid)
  ids.foldl npcInteractionProcess w

/-- Insertion into the `Set`-backed accumulator of
`getFutureStopsFromStop` (first insertion wins the position, duplicates
dropped). -/
def insertUnique (xs : List String) (x : String) : List String :=
  if x ∈ xs then xs else xs ++ [x]

/-- JavaScript `Array.indexOf`: index of the first occurrence, if any. -/
def indexOfFirst (x : String) : List String → Option Nat
  | [] => none
  | y :: rest =>
    if y = x then some 0 else (indexOfFirst x rest).map Nat.succ

/-- Embeds `getFutureStopsFromStop` (`NPCSpawnerSystem.ts:33-52`): over every
route containing the stop, collect the stop ids strictly after its first
occurrence, deduplicated in insertion order. -/
def getFutureStopsFromStop (w : World) (currentStopId : String) : List String :=
  w.routes.foldl
    (fun acc routeData =>
      match indexOfFirst currentStopId routeData.stopIds with
      | some currentIndex => (routeData.stopIds.drop (currentIndex + 1)).foldl insertUnique acc
      | none => acc) []

/-- The fallback candidate list of `spawnNPC` (`NPCSpawnerSystem.ts:119-123`):
entity ids of every stop (holding `stop_data` and `stop_position`) other than
the spawning one. -/
def otherStopIds (w : World) (stopId : String) : List Nat :=
  ((w.entities.filter (fun e => e.stopData.isSome && e.stopPos.isSome)).filter
    (fun e => match e.stopData with
      | some sd => sd.id ≠ stopId
      | none => false)).map (fun e => e.eid)

/-- The rider id string `npc_${Date.now()}_${Math.random()...}`
(`NPCSpawnerSystem.ts:104`); the wall-clock reading and the draw are
explicit inputs. -/
def npcIdOf (now r : ℚ) : String :=
  "npc_" ++ toString now ++ "_" ++ toString r

/-- The destination choice of `spawnNPC` (`NPCSpawnerSystem.ts:107-130`):
with candidate stops strictly later on some route through this stop, pick
one uniformly (`Math.floor(Math.random() * length)`); otherwise fall back to
a uniformly chosen other stop's id, or `null` when no other stop exists.
Returns the chosen destination and the remaining random stream. -/
def spawnPick (w : World) (stopId : String) (rng : List ℚ) :
    Option String × List ℚ :=
  let futureStops := getFutureStopsFromStop w stopId
  if 0 < futureStops.length then
    let d2 := draw rng
    (jsIndex futureStops (Int.floor (d2.1 * (futureStops.length : ℚ))), d2.2)
  else
    let others := otherStopIds w stopId
    if 0 < others.length then
      let d2 := draw rng
      let chosen := (if 0 ≤ Int.floor (d2.1 * (others.length : ℚ)) then
        others[(Int.floor (d2.1 * (others.length : ℚ))).toNat]? else none)
      (match chosen with
        | some oid => (getStopData w oid).map (fun sd => sd.id)
        | none => none, d2.2)
    else (none, rng)

/-- Embeds `spawnNPC` (`NPCSpawnerSystem.ts:100-146`).  On the entity-ceiling
sentinel it returns with the store untouched (consuming no draws).  Otherwise
it draws for the id suffix, chooses the destination (`spawnPick`), draws the
position jitter and the patience, and attaches the `npc_position` and
`npc_data` components.  `Date.now()` is the explicit `now` input. -/
def spawnNPC (stopId : String) (x y now : ℚ) (w : World) (rng : List ℚ) :
    World × List ℚ :=
  match createEntity w with
  | (none, w) => (w, rng)
  | (some entityId, w) =>
    let d1 := draw rng
    let npcId := npcIdOf now d1.1
    let pick := spawnPick w stopId d1.2
    let targetStopId := pick.1
    let d3 := draw pick.2
    let d4 := draw d3.2
    let d5 := draw d4.2
    let w := setNpcPos w entityId
      { x := x + (d3.1 - 1/2) * 20, y := y + (d4.1 - 1/2) * 20,
        targetStopId := targetStopId }
    let w := setNpcData w entityId
      { id := npcId, state := NPCState.waiting, currentStopId := some stopId,
        busEntityId := none, targetStopId := none,
        patience := 30 + d5.1 * 30, spawnTime := now }
    (w, d5.2)

/-- The `waitingPassengers++` performed through the live stop-data reference
after a spawn (`NPCSpawnerSystem.ts:92`). -/
def incStopQueue (w : World) (eid : Nat) : World :=
  mapEntity w eid (fun e =>
    match e.stopData with
    | some sd =>
      { e with stopData := some ({ sd with waitingPassengers := sd.waitingPassengers + 1 }) }
    | none => e)

/-- One stop's step of `npcSpawnerSystem.update`
(`NPCSpawnerSystem.ts:66-96`): a stop at its queue ceiling (100) is skipped
before the timer even accumulates; otherwise the per-stop timer (initialised
to `0` on first sight) accumulates `deltaTime`, and on reaching the period's
interval (`spawnRates[period] || 5.0`) the timer resets, a rider is spawned
and the queue counter incremented. -/
def spawnerProcessStop (period : TimePeriod) (now dt : ℚ)
    (acc : World × List ℚ) (eid : Nat) : World × List ℚ :=
  let w := acc.1
  let rng := acc.2
  match getStopData w eid, getStopPos w eid with
  | some stopData, some stopPos =>
    if 100 ≤ stopData.waitingPassengers then (w, rng)
    else
      let spawnInterval := jsOr (stopData.spawnRates.get period) 5
      let timers := if (mapGet w.spawnTimers stopData.id).isNone then
        mapSet w.spawnTimers stopData.id 0 else w.spawnTimers
      let timer := (mapGet timers stopData.id).getD 0 + dt
      if spawnInterval ≤ timer then
        let w := { w with spawnTimers := timers }
        let p := spawnNPC stopData.id stopPos.x stopPos.y now w rng
        let w := incStopQueue p.1 eid
        ({ w with spawnTimers := mapSet w.spawnTimers stopData.id 0 }, p.2)
      else
        ({ w with spawnTimers := mapSet timers stopData.id timer }, rng)
  | _, _ => (w, rng)

/-- The entity ids the spawner system is handed (matching set `stop_data`,
`stop_position`). -/
def spawnerMatchIds (w : World) : List Nat :=
  (w.entities.filter (fun e => e.stopData.isSome && e.stopPos.isSome)).map
    (fun e => e.eid)

/-- Whole-store step of the rider spawn system, threading the `Math.random`
stream through the stops in entity order. -/
def npcSpawnerUpdate (period : TimePeriod) (now dt : ℚ) (w : World)
    (rng : List ℚ) : World × List ℚ :=
  (spawnerMatchIds w).foldl (spawnerProcessStop period now dt) (w, rng)

/-- One fixed logic tick over the store: the four mutating simulation
systems in their registration order from `app/init.ts` (`busMovementSystem`,
`busLogicSystem`, `npcSpawnerSystem`, `npcInteractionSystem`; the render
systems read the store only). -/
def logicTick (m : JsMath) (period : TimePeriod) (now dt : ℚ) (w : World)
    (rng : List ℚ) : World :=
  let w := busMovementUpdate m dt w
  let w := busLogicUpdate dt w
  let p := npcSpawnerUpdate period now dt w rng
  npcInteractionUpdate p.1

/-- A registered system as `updateSystems` sees it (`System` in
`EntityManagerService.ts`; named `SimSystem` here because `System` is taken
in Lean): a name, the required component tags, and an update whose returned
flag records whether it threw — a throwing update still leaves its partial
mutations behind, which the returned world carries. -/
structure SimSystem where
  name : String
  requiredComponents : List String
  update : ℚ → List Nat → World → World × Bool

/-- Tag dispatch for `hasComponent` over the fixed tag set. -/
def hasComponent (e : Entity) (tag : String) : Bool :=
  if tag = "bus_position" then e.busPos.isSome
  else if tag = "bus_velocity" then e.busVel.isSome
  else if tag = "bus_data" then e.busData.isSome
  else if tag = "npc_position" then e.npcPos.isSome
  else if tag = "npc_data" then e.npcData.isSome
  else if tag = "stop_position" then e.stopPos.isSome
  else if tag = "stop_data" then e.stopData.isSome
  else if tag = "route_data" then e.routeData.isSome
  else false

/-- Embeds `getEntitiesWithComponents` (`EntityManagerService.ts:219-235`):
ids of the entities holding every listed tag, in entity insertion order. -/
def getEntitiesWithComponents (w : World) (tags : List String) : List Nat :=
  (w.entities.filter (fun e => tags.all (fun t => hasComponent e t))).map
    (fun e => e.eid)

/-- The system loop of `updateSystems` (`EntityManagerService.ts:308-315`):
registration order; each system's matching set computed fresh, inside the
`try`, immediately before its update; a thrown update is caught and logged
and the loop continues.  Besides the final store the invocation trace —
which system ran, with which entity list — is returned. -/
def updateSystemsAux (dt : ℚ) :
    List SimSystem → World → World × List (String × List Nat)
  | [], w => (w, [])
  | s :: rest, w =>
    let ents := getEntitiesWithComponents w s.requiredComponents
    let p := s.update dt ents w
    let q := updateSystemsAux dt rest p.1
    (q.1, (s.name, ents) :: q.2)

/-- Embeds `updateSystems` (`EntityManagerService.ts:298-316`), including the
initialisation guard. -/
def updateSystems (dt : ℚ) (systems : List SimSystem) (w : World) :
    World × List (String × List Nat) :=
  if w.isInitialized then updateSystemsAux dt systems w else (w, [])

/-! ### Derived predicates used by the theorems -/

/-- Bounds check (`0 ≤ stopIndex < routeLength`) for one bus-data record
against a route table. -/
def stopIndexOk (routes : List RouteDataComponent) (d : BusDataComponent) : Prop :=
  ∀ rid r, d.routeId = some rid → routes.find? (fun x => x.id = rid) = some r →
    0 ≤ d.currentStopIndex ∧ d.currentStopIndex < (r.stopIds.length : Int)

/-- The index-bound invariant over the whole store. -/
def allBusesInBounds (w : World) : Prop :=
  ∀ e ∈ w.entities, ∀ d, e.busData = some d → stopIndexOk w.routes d

/-- Executable form of `allBusesInBounds`, used to discharge hypotheses on
concrete stores. -/
def allBusesInBoundsB (w : World) : Bool :=
  w.entities.all (fun e =>
    match e.busData with
    | some d =>
      match d.routeId with
      | some rid =>
        match findRouteById w rid with
        | some r => decide (0 ≤ d.currentStopIndex ∧ d.currentStopIndex < (r.stopIds.length : Int))
        | none => true
      | none => true
    | none => true)

/-- Whether a stop entity cannot fire a spawn this tick: either its queue is
at the ceiling (and the spawner skips it before touching the timer) or its
accumulated timer stays below the period's interval. -/
def noFireB (period : TimePeriod) (dt : ℚ) (w : World) (eid : Nat) : Bool :=
  match getStopData w eid with
  | some sd =>
    decide (100 ≤ sd.waitingPassengers) ||
      decide ((mapGet w.spawnTimers sd.id).getD 0 + dt < jsOr (sd.spawnRates.get period) 5)
  | none => true

/-- The logical stop ids attached to a list of entity ids (used to state
that per-stop spawn timers do not alias). -/
def stopDataIds (w : World) (ids : List Nat) : List String :=
  ids.filterMap (fun i => (getStopData w i).map (fun sd => sd.id))

/-- Store evolution that can only copy bus-data records (possibly changing
fields other than the stop index and route reference): every bus-data record
of the evolved store agrees on `currentStopIndex` and `routeId` with some
bus-data record of the original store, and the route table is unchanged.
The index-bound invariant transfers along this relation. -/
def busRefPreserved (w v : World) : Prop :=
  v.routes = w.routes ∧
  ∀ e₂ ∈ v.entities, ∀ d₂, e₂.busData = some d₂ →
    ∃ e₁ ∈ w.entities, ∃ d₁, e₁.busData = some d₁ ∧
      d₂.currentStopIndex = d₁.currentStopIndex ∧ d₂.routeId = d₁.routeId

/-- All draws of a `Math.random` stream lie in the half-open unit interval. -/
def rngGood (rng : List ℚ) : Prop := ∀ r ∈ rng, 0 ≤ r ∧ r < 1

/-- Entity-id freshness: the store's id counter is strictly above every live
entity id (`nextEntityId` is post-incremented on every allocation and ids
are never reused). -/
def freshIds (w : World) : Prop := ∀ e ∈ w.entities, e.eid < w.nextEntityId

/-! ### Concrete fixtures -/

/-- A concrete stand-in for the `Math` functions, used where a scenario
never actually consults them. -/
def idMath : JsMath := { sqrt := fun q => q, atan2 := fun _ _ => 0 }

def defaultRates : SpawnRates := { morning := 20, day := 20, evening := 20, night := 20 }

def fastRates : SpawnRates := { morning := 1, day := 1, evening := 1, night := 1 }

def mkStopData (sid sname : String) (queue : Int) (rates : SpawnRates) :
    StopDataComponent :=
  { id := sid, name := sname, radius := 30, color := "#00ff00",
    waitingPassengers := queue, spawnRates := rates }

def mkStopEntity (eid : Nat) (sid sname : String) (x y : ℚ) (queue : Int)
    (rates : SpawnRates) : Entity :=
  { eid := eid,
    stopPos := some { x := x, y := y },
    stopData := some (mkStopData sid sname queue rates) }

def mkRouteData (rid rname : String) (stopIds : List String) (loop : Bool) :
    RouteDataComponent :=
  { id := rid, name := rname, stopIds := stopIds, color := "#ff0000",
    isActive := true, loop := loop }

def mkRouteEntity (eid : Nat) (rid rname : String) (stopIds : List String)
    (loop : Bool) : Entity :=
  { eid := eid, routeData := some (mkRouteData rid rname stopIds loop) }

def mkBusData (bid : String) (routeId : Option String) (idx : Int)
    (st : BusState) (cap pass : Int) : BusDataComponent :=
  { id := bid, routeId := routeId, currentStopIndex := idx, state := st,
    capacity := cap, passengers := pass, color := "#ffcc00",
    waitTimer := 3, waitTimeRequired := 3 }

def mkBusEntity (eid : Nat) (bid : String) (routeId : Option String) (idx : Int)
    (st : BusState) (cap pass : Int) (x y : ℚ) : Entity :=
  { eid := eid,
    busPos := some { x := x, y := y, rotation := 0 },
    busVel := some { speed := 0, maxSpeed := 150, acceleration := 50, isMoving := false },
    busData := some (mkBusData bid routeId idx st cap pass) }

def mkNpcData (nid : String) (st : NPCState) (curStop : Option String)
    (busEid : Option Nat) : NPCDataComponent :=
  { id := nid, state := st, currentStopId := curStop, busEntityId := busEid,
    targetStopId := none, patience := 30, spawnTime := 0 }

def mkWaitingNpc (eid : Nat) (nid sid : String) (x y : ℚ)
    (target : Option String) : Entity :=
  { eid := eid,
    npcPos := some { x := x, y := y, targetStopId := target },
    npcData := some (mkNpcData nid NPCState.waiting (some sid) none) }

def mkRidingNpc (eid : Nat) (nid : String) (busEid : Nat) (x y : ℚ)
    (target : Option String) : Entity :=
  { eid := eid,
    npcPos := some { x := x, y := y, targetStopId := target },
    npcData := some (mkNpcData nid NPCState.onBus none (some busEid)) }

def mkWorld (es : List Entity) (nextId : Nat) : World :=
  { nextEntityId := nextId, maxEntities := 10000, isInitialized := true,
    entities := es, spawnTimers := [], routeCache := none, stopCache := none,
    events := [] }

/-- Scenario store for the capacity-2 boarding scenario: a `STOPPED` bus of
capacity 2 with 0 aboard at stop `s1` (index 0 of the two-stop route `r1`),
three `WAITING` riders at `s1`, the stop's queue counter at 3. -/
def boardingWorld : World :=
  mkWorld
    [mkBusEntity 0 ("bus1") (some ("r1")) 0 BusState.stopped 2 0 100 100,
     mkWaitingNpc 1 ("n1") ("s1") 101 100 (some ("s2")),
     mkWaitingNpc 2 ("n2") ("s1") 102 100 (some ("s2")),
     mkWaitingNpc 3 ("n3") ("s1") 103 100 (some ("s2")),
     mkStopEntity 4 ("s1") ("Stop 1") 100 100 3 defaultRates,
     mkStopEntity 5 ("s2") ("Stop 2") 300 100 0 defaultRates,
     mkRouteEntity 6 ("r1") ("Route 1") [("s1"), ("s2")] false]
    7

/-- Store exhibiting the occupancy-counter behaviour of `unloadPassengers`:
a `STOPPED` bus at the final stop (`s2`, index 1) of the non-looping route
`r1`, with its `passengers` counter at 2 while exactly one rider is aboard. -/
def unloadCounterWorld : World :=
  mkWorld
    [mkBusEntity 0 ("bus1") (some ("r1")) 1 BusState.stopped 20 2 300 100,
     mkRidingNpc 1 ("n1") 0 300 100 (some ("s2")),
     mkStopEntity 2 ("s1") ("Stop 1") 100 100 0 defaultRates,
     mkStopEntity 3 ("s2") ("Stop 2") 300 100 0 defaultRates,
     mkRouteEntity 4 ("r1") ("Route 1") [("s1"), ("s2")] false]
    5

/-- Store exhibiting the destination-alighting behaviour: a `STOPPED` bus at
stop `s1` (index 0) of the looping route `r1`, with one rider aboard whose
`npc_position.targetStopId` — where the spawner stores the destination — is
exactly `s1`. -/
def destinationWorld : World :=
  mkWorld
    [mkBusEntity 0 ("bus1") (some ("r1")) 0 BusState.stopped 20 1 100 100,
     mkRidingNpc 1 ("n1") 0 100 100 (some ("s1")),
     mkStopEntity 2 ("s1") ("Stop 1") 100 100 0 defaultRates,
     mkStopEntity 3 ("s2") ("Stop 2") 300 100 0 defaultRates,
     mkRouteEntity 4 ("r1") ("Route 1") [("s1"), ("s2")] true]
    5

/-- Store with a freshly purchased bus on the two-stop non-looping route
`r1`: the bus components are exactly those `createBusOnRoute` attaches. -/
def freshBusWorld : World :=
  mkWorld
    [mkRouteEntity 0 ("r1") ("Route 1") [("s1"), ("s2")] false,
     { eid := 1,
       busPos := some (createBusOnRoute ("r1") ("bus_1") 100 100).1,
       busVel := some (createBusOnRoute ("r1") ("bus_1") 100 100).2.1,
       busData := some (createBusOnRoute ("r1") ("bus_1") 100 100).2.2 },
     mkStopEntity 2 ("s1") ("Stop 1") 100 100 0 defaultRates,
     mkStopEntity 3 ("s2") ("Stop 2") 300 100 0 defaultRates]
    4

/-- Store at the entity ceiling: `maxEntities` is configured to 1 and the
single stop `s1` occupies it; its spawn interval is 1 s in every period. -/
def ceilingWorld : World :=
  { nextEntityId := 1, maxEntities := 1, isInitialized := true,
    entities := [mkStopEntity 0 ("s1") ("Stop 1") 0 0 0 fastRates],
    spawnTimers := [], routeCache := none, stopCache := none, events := [] }

/-- Store with a single stop (interval 1 s in every period) and room to
spawn; used to compare two runs with different random streams. -/
def spawnWorld : World :=
  mkWorld [mkStopEntity 0 ("s1") ("Stop 1") 0 0 0 fastRates] 1

/-- Store with a single stop whose queue counter sits at the ceiling, so no
spawn can fire. -/
def quietWorld : World :=
  mkWorld [mkStopEntity 0 ("s1") ("Stop 1") 0 0 100 defaultRates] 1

/-- A registered system whose update always throws (returns its world with
the thrown flag), for exercising fault isolation. -/
def faultySystem : SimSystem :=
  { name := "A", requiredComponents := [("bus_data")],
    update := fun _ _ w => (w, true) }

/-- A registered system running after the faulty one; its update publishes a
marker event. -/
def markerSystem : SimSystem :=
  { name := "B", requiredComponents := [],
    update := fun _ _ w => (pushEvent w (GameEvent.busCreated ("marker") 0), false) }

/-! ## Theorems -/

/-- C5: a single un-paused frame with 0.9 s of elapsed wall time, fixed step
1/60 s and catch-up ceiling 5 executes exactly 5 logic invocations, each
with exactly the fixed step as its delta, and resets the accumulator to 0
afterwards (not 54 invocations). -/
theorem scheduler_spiral_guard_five_ticks :
    (gameLoopFrame (1/60) 5 0 (9/10)).logicDeltas = List.replicate 5 (1/60) ∧
    (gameLoopFrame (1/60) 5 0 (9/10)).logicDeltas.length = 5 ∧
    (gameLoopFrame (1/60) 5 0 (9/10)).accumulator = 0 := by
  norm_num [gameLoopFrame, catchUpAux, List.replicate]

/-- C6: with a `STOPPED` vehicle of capacity 2 at a resolvable non-terminus
stop and exactly three `WAITING` riders at that stop (queue counter 3),
exactly riders `n1` and `n2` transition to `ON_VEHICLE` with their vehicle
back-reference set, rider `n3` stays `WAITING`, the vehicle's occupancy
becomes 2 (its capacity, not more), and the stop queue drops by exactly 2,
from 3 to 1. -/
theorem boarding_capacity_scenario :
    ((getNpcData (npcInteractionUpdate boardingWorld) 1).map
       (fun nd => (nd.state, nd.busEntityId)) = some (NPCState.onBus, some 0)) ∧
    ((getNpcData (npcInteractionUpdate boardingWorld) 2).map
       (fun nd => (nd.state, nd.busEntityId)) = some (NPCState.onBus, some 0)) ∧
    ((getNpcData (npcInteractionUpdate boardingWorld) 3).map
       (fun nd => (nd.state, nd.busEntityId)) = some (NPCState.waiting, none)) ∧
    ((getBusData (npcInteractionUpdate boardingWorld) 0).map
       (fun d => d.passengers) = some 2) ∧
    ((getBusData (npcInteractionUpdate boardingWorld) 0).map
       (fun d => d.capacity) = some 2) ∧
    ((getStopData (npcInteractionUpdate boardingWorld) 4).map
       (fun sd => sd.waitingPassengers) = some 1) := by
  decide

/-- C1 (failing input): at a stop where exactly one rider alights from a bus
whose `passengers` counter reads 2, `unloadPassengers` zeroes the counter
(`busData.passengers = 0`, `NPCInteractionSystem.ts:128`) instead of
decrementing it by the one alighted rider — the counter moves by 2, more
than the number of alighted riders, so riders the counter said remained are
no longer counted. -/
theorem unload_zeroes_occupancy_counter :
    ((getBusData (npcInteractionUpdate unloadCounterWorld) 0).map
       (fun d => d.passengers) = some 0) ∧
    ((npcInteractionUpdate unloadCounterWorld).entities.countP
       (fun e => match e.npcData with
         | some nd => nd.state = NPCState.arrived
         | none => false) = 1) ∧
    ((getBusData (npcInteractionUpdate unloadCounterWorld) 0).map
       (fun d => d.passengers) ≠ some (2 - 1)) := by
  decide

/-- C2 (failing input): a rider aboard a bus `STOPPED` at the rider's own
destination stop (`npc_position.targetStopId = "s1"`, the resolved current
stop) on a looping route does not alight: the code compares the stop id
against `npcData.targetStopId`, a key the data component never carries, so
the rider stays `ON_VEHICLE` with its back-reference intact. -/
theorem destination_alighting_never_fires :
    ((getBusData destinationWorld 0).map
       (fun bd => getCurrentStopId destinationWorld bd) = some (some ("s1"))) ∧
    ((getNpcPos destinationWorld 1).map
       (fun np => np.targetStopId) = some (some ("s1"))) ∧
    ((getBusData destinationWorld 0).map
       (fun bd => isFinalStopForRoute destinationWorld bd) = some false) ∧
    ((getNpcData (npcInteractionUpdate destinationWorld) 1).map
       (fun nd => (nd.state, nd.busEntityId)) = some (NPCState.onBus, some 0)) := by
  decide

/-- C4 (counterexample): a bus created by `createBusOnRoute` (stop index 0,
`IDLE`) on a two-stop route makes its first transition into
`MOVING_TO_STOP` with stop index 1, not 0: `advanceToNextStop`
pre-increments the index before dispatching. -/
theorem first_dispatch_not_index_zero :
    ((getBusData (busLogicProcess (1/60) freshBusWorld 1) 1).map
       (fun d => (d.state, d.currentStopIndex)) =
       some (BusState.movingToStop, 1)) ∧
    ((getBusData (busLogicProcess (1/60) freshBusWorld 1) 1).map
       (fun d => d.currentStopIndex) ≠ some 0) := by
  decide

/-- C4 (amended): the first dispatch of a vehicle created bound to a route
at stop index 0 in `IDLE` state targets stop index 1 on any route with at
least two stops — the state machine advances past the creation index before
entering `MOVING_TO_STOP`. -/
theorem first_dispatch_targets_index_one
    (w : World) (vel : BusVelocityComponent) (rid bid : String) (sx sy : ℚ)
    (r : RouteDataComponent) (hfind : findRouteById w rid = some r)
    (hlen : 2 ≤ r.stopIds.length) :
    ((advanceToNextStop w (createBusOnRoute rid bid sx sy).2.2 vel).1.state =
       BusState.movingToStop) ∧
    ((advanceToNextStop w (createBusOnRoute rid bid sx sy).2.2 vel).1.currentStopIndex = 1) ∧
    ((advanceToNextStop w (createBusOnRoute rid bid sx sy).2.2 vel).2.isMoving = true) := by
  have hlen2 : (2 : Int) ≤ (r.stopIds.length : Int) := by exact_mod_cast hlen
  simp only [advanceToNextStop, createBusOnRoute, hfind]
  have hne : ¬((r.stopIds.length : Int) = 0) := by omega
  rw [if_neg hne]
  have hle : ¬((r.stopIds.length : Int) ≤ 0 + 1) := by omega
  rw [if_neg hle]
  exact ⟨rfl, rfl, rfl⟩

/-- Closed instantiation of `first_dispatch_targets_index_one` on the
concrete two-stop store. -/
theorem first_dispatch_targets_index_one_witness :
    ((advanceToNextStop freshBusWorld
        (createBusOnRoute ("r1") ("bus_1") 100 100).2.2
        (createBusOnRoute ("r1") ("bus_1") 100 100).2.1).1.state =
       BusState.movingToStop) ∧
    ((advanceToNextStop freshBusWorld
        (createBusOnRoute ("r1") ("bus_1") 100 100).2.2
        (createBusOnRoute ("r1") ("bus_1") 100 100).2.1).1.currentStopIndex = 1) ∧
    ((advanceToNextStop freshBusWorld
        (createBusOnRoute ("r1") ("bus_1") 100 100).2.2
        (createBusOnRoute ("r1") ("bus_1") 100 100).2.1).2.isMoving = true) :=
  first_dispatch_targets_index_one freshBusWorld
    (createBusOnRoute ("r1") ("bus_1") 100 100).2.1 ("r1") ("bus_1") 100 100
    (mkRouteData ("r1") ("Route 1") [("s1"), ("s2")] false) (by decide) (by decide)

/-- Every registered system appears in the invocation trace, in registration
order, whatever the update results (thrown or not). -/
theorem updateSystemsAux_trace_names (dt : ℚ) :
    ∀ (systems : List SimSystem) (w : World),
      (updateSystemsAux dt systems w).2.map Prod.fst = systems.map SimSystem.name
  | [], _ => rfl
  | s :: rest, w => by
    simp only [updateSystemsAux, List.map_cons, List.map]
    exact congrArg _ (updateSystemsAux_trace_names dt rest _)

/-- C10: on an initialised store, `runSystems(dt)` invokes the registered
systems in registration order — every system exactly once, even when
earlier updates throw (the thrown flag is caught at the dispatch boundary
and does not abort the loop) — and each system's matching entity set is
computed freshly from the store state immediately before that system's
invocation, never reused from a prior system or tick. -/
theorem updateSystems_order_fresh_isolated (dt : ℚ) (systems : List SimSystem)
    (w : World) (hinit : w.isInitialized = true) :
    ((updateSystems dt systems w).2.map Prod.fst = systems.map SimSystem.name) ∧
    (∀ s rest, systems = s :: rest →
      (updateSystems dt systems w).2 =
        (s.name, getEntitiesWithComponents w s.requiredComponents) ::
          (updateSystemsAux dt rest
            (s.update dt (getEntitiesWithComponents w s.requiredComponents) w).1).2) := by
  constructor
  · simp only [updateSystems, hinit, if_true]
    exact updateSystemsAux_trace_names dt systems w
  · intro s rest hsys
    subst hsys
    simp only [updateSystems, hinit, if_true, updateSystemsAux]

/-- Closed instantiation of `updateSystems_order_fresh_isolated`: with a
throwing system registered first, the trace still lists both systems in
registration order. -/
theorem updateSystems_order_fresh_isolated_witness :
    (updateSystems 1 [faultySystem, markerSystem] (mkWorld [] 0)).2.map Prod.fst =
      [("A"), ("B")] := by
  have h := (updateSystems_order_fresh_isolated 1 [faultySystem, markerSystem]
    (mkWorld [] 0) rfl).1
  simpa [faultySystem, markerSystem] using h

/-- C8: in every tick of a `MOVING_TO_STOP` vehicle beyond the arrival
radius, the braking/acceleration speed computation is safe: the braking
branch's radicand `2·a·max(0, distance − arrivalRadius)` is never negative
(so `Math.sqrt` never produces `NaN`), and the produced speed — clamped to
`max 0 (min speed target)` in the braking branch — is non-negative in every
branch, for any value of the square-root function. -/
theorem braking_speed_nonneg (m : JsMath) (vel : BusVelocityComponent)
    (distance dt : ℚ) (haccel : 0 ≤ vel.acceleration) (hspeed : 0 ≤ vel.speed)
    (hdt : 0 ≤ dt) :
    0 ≤ 2 * vel.acceleration * max 0 (distance - 10) ∧
    0 ≤ movementSpeedUpdate m vel distance dt := by
  constructor
  · exact mul_nonneg (mul_nonneg (by norm_num) haccel) (le_max_left 0 _)
  · simp only [movementSpeedUpdate]
    split_ifs with h1 h2 h3
    · exact le_max_left 0 _
    · exact le_of_lt (lt_of_le_of_lt hspeed h2)
    · exact add_nonneg hspeed (mul_nonneg haccel hdt)
    · exact hspeed

/-- Closed instantiation of `braking_speed_nonneg` with the velocity
component `createBusOnRoute` attaches, 20 units from the target, at a 1/60 s
step. -/
theorem braking_speed_nonneg_witness :
    0 ≤ 2 * (createBusOnRoute ("r1") ("b") 0 0).2.1.acceleration *
        max 0 ((20 : ℚ) - 10) ∧
    0 ≤ movementSpeedUpdate idMath (createBusOnRoute ("r1") ("b") 0 0).2.1 20 (1/60) :=
  braking_speed_nonneg idMath (createBusOnRoute ("r1") ("b") 0 0).2.1 20 (1/60)
    (by norm_num [createBusOnRoute]) (by norm_num [createBusOnRoute]) (by norm_num)

/-- C9 (counterexample): on a store at its configured entity ceiling
(`maxEntities = 1`, held by the stop itself), a tick whose elapsed time
fires the stop's spawn timer (interval 1 s, queue 0 < ceiling) increments
the queue counter to 1 while creating no rider at all — `spawnNPC` returns
on the `-1` sentinel, but the caller increments `waitingPassengers`
unconditionally. -/
theorem queue_increment_without_rider :
    ((getStopData (npcSpawnerUpdate TimePeriod.morning 0 2 ceilingWorld []).1 0).map
       (fun sd => sd.waitingPassengers) = some 1) ∧
    ((npcSpawnerUpdate TimePeriod.morning 0 2 ceilingWorld []).1.entities.length = 1) ∧
    ((npcSpawnerUpdate TimePeriod.morning 0 2 ceilingWorld []).1.entities.countP
       (fun e => e.npcData.isSome) = 0) := by
  norm_num [npcSpawnerUpdate, spawnerMatchIds, spawnerProcessStop, spawnNPC, createEntity,
    incStopQueue, getStopData, getStopPos, getEntity, ceilingWorld, mkStopEntity, mkStopData,
    fastRates, SpawnRates.get, jsOr, mapGet, mapSet, draw, mapEntity]

/-! ### Store and map lemmas -/

theorem mapGet_cons {α : Type} (p : String × α) (m : List (String × α)) (k : String) :
    mapGet (p :: m) k = if p.fst = k then some p.snd else mapGet m k := by
  by_cases h : p.fst = k
  · rw [if_pos h]
    unfold mapGet
    rw [List.find?_cons_of_pos _ (by simpa using h)]
    rfl
  · rw [if_neg h]
    unfold mapGet
    rw [List.find?_cons_of_neg _ (by simpa using h)]

theorem mapGet_mapSet_self {α : Type} :
    ∀ (m : List (String × α)) (k : String) (v : α), mapGet (mapSet m k v) k = some v
  | [], k, v => by simp [mapSet, mapGet_cons]
  | p :: m, k, v => by
    by_cases h : p.fst = k
    · simp [mapSet, if_pos h, mapGet_cons]
    · rw [mapSet, if_neg h, mapGet_cons, if_neg h]
      exact mapGet_mapSet_self m k v

theorem mapGet_mapSet_ne {α : Type} :
    ∀ (m : List (String × α)) (k k' : String) (v : α), k' ≠ k →
      mapGet (mapSet m k v) k' = mapGet m k'
  | [], k, k', v, h => by
    have hne : ¬(k = k') := fun hh => h hh.symm
    simp [mapSet, mapGet_cons, hne]
  | p :: m, k, k', v, h => by
    have hne : ¬(k = k') := fun hh => h hh.symm
    by_cases hp : p.fst = k
    · simp [mapSet, hp, mapGet_cons, hne]
    · simp only [mapSet, if_neg hp, mapGet_cons]
      by_cases hk : p.fst = k'
      · rw [if_pos hk, if_pos hk]
      · rw [if_neg hk, if_neg hk]
        exact mapGet_mapSet_ne m k k' v h

/-- Reading the spawner timer after the lazy zero-initialisation equals
reading it with a zero default. -/
theorem timerRead_init (m : List (String × ℚ)) (k : String) :
    (mapGet (if (mapGet m k).isNone then mapSet m k 0 else m) k).getD 0 =
      (mapGet m k).getD 0 := by
  cases h : mapGet m k with
  | none => simp [h, mapGet_mapSet_self]
  | some v => simp [h]

theorem find?_eid_map (g : Entity → Entity) (hg : ∀ e, (g e).eid = e.eid)
    (l : List Entity) (n : Nat) :
    (l.map g).find? (fun e => e.eid = n) = (l.find? (fun e => e.eid = n)).map g := by
  induction l with
  | nil => rfl
  | cons e t ih =>
    by_cases h : e.eid = n
    · rw [List.map_cons, List.find?_cons_of_pos _ (by simp [hg, h]),
        List.find?_cons_of_pos _ (by simp [h])]
      rfl
    · rw [List.map_cons, List.find?_cons_of_neg _ (by simp [hg, h]),
        List.find?_cons_of_neg _ (by simp [h])]
      exact ih

theorem getEntity_mapEntity (w : World) (i : Nat) (f : Entity → Entity)
    (hf : ∀ e, (f e).eid = e.eid) (n : Nat) :
    getEntity (mapEntity w i f) n =
      (getEntity w n).map (fun e => if e.eid = i then f e else e) := by
  unfold getEntity mapEntity
  exact find?_eid_map _ (fun e => by by_cases h : e.eid = i <;> simp [h, hf]) w.entities n

theorem getEntity_of_getStopData {w : World} {n : Nat} {sd : StopDataComponent}
    (h : getStopData w n = some sd) :
    ∃ e, getEntity w n = some e ∧ e.stopData = some sd ∧ e.eid = n ∧ e ∈ w.entities := by
  unfold getStopData at h
  cases he : getEntity w n with
  | none => rw [he] at h; cases h
  | some e =>
    rw [he] at h
    refine ⟨e, rfl, h, ?_, ?_⟩
    · have := List.find?_some he
      simpa using this
    · exact List.mem_of_find?_eq_some he

/-- The npc-component setters do not touch stop components. -/
theorem getStopData_setNpcPos (w : World) (i n : Nat) (v : NPCPositionComponent) :
    getStopData (setNpcPos w i v) n = getStopData w n := by
  unfold getStopData setNpcPos mapEntity getEntity
  rw [find?_eid_map]
  · cases w.entities.find? (fun e => e.eid = n) with
    | none => rfl
    | some e => by_cases h : e.eid = i <;> simp [h]
  · intro e
    by_cases h : e.eid = i <;> simp [h]

theorem getStopData_setNpcData (w : World) (i n : Nat) (v : NPCDataComponent) :
    getStopData (setNpcData w i v) n = getStopData w n := by
  unfold getStopData setNpcData mapEntity getEntity
  rw [find?_eid_map]
  · cases w.entities.find? (fun e => e.eid = n) with
    | none => rfl
    | some e => by_cases h : e.eid = i <;> simp [h]
  · intro e
    by_cases h : e.eid = i <;> simp [h]

/-- `incStopQueue` does not touch npc components. -/
theorem getNpcData_incStopQueue (w : World) (i n : Nat) :
    getNpcData (incStopQueue w i) n = getNpcData w n := by
  unfold getNpcData incStopQueue mapEntity getEntity
  rw [find?_eid_map]
  · cases w.entities.find? (fun e => e.eid = n) with
    | none => rfl
    | some e => by_cases h : e.eid = i <;> cases hx : e.stopData <;> simp [h, hx]
  · intro e
    by_cases h : e.eid = i <;> cases hx : e.stopData <;> simp [h, hx]

theorem getNpcPos_incStopQueue (w : World) (i n : Nat) :
    getNpcPos (incStopQueue w i) n = getNpcPos w n := by
  unfold getNpcPos incStopQueue mapEntity getEntity
  rw [find?_eid_map]
  · cases w.entities.find? (fun e => e.eid = n) with
    | none => rfl
    | some e => by_cases h : e.eid = i <;> cases hx : e.stopData <;> simp [h, hx]
  · intro e
    by_cases h : e.eid = i <;> cases hx : e.stopData <;> simp [h, hx]

/-- Incrementing the queue through the live reference bumps exactly the
entity's own counter. -/
theorem getStopData_incStopQueue_self (w : World) (i : Nat) :
    getStopData (incStopQueue w i) i =
      (getStopData w i).map
        (fun sd => { sd with waitingPassengers := sd.waitingPassengers + 1 }) := by
  unfold getStopData incStopQueue mapEntity getEntity
  rw [find?_eid_map]
  · cases he : w.entities.find? (fun e => e.eid = i) with
    | none => rfl
    | some e =>
      have heid : e.eid = i := by simpa using List.find?_some he
      cases hsd : e.stopData with
      | none => simp [heid, hsd]
      | some sd => simp [heid, hsd]
  · intro e
    by_cases h : e.eid = i <;> cases hx : e.stopData <;> simp [h, hx]

/-- Appending a fresh empty entity does not change any stop lookup. -/
theorem getStopData_append_empty (w : World) (nid nx : Nat) (n : Nat) :
    getStopData
      { w with nextEntityId := nx, entities := w.entities ++ [Entity.empty nid] } n =
      getStopData w n := by
  unfold getStopData getEntity
  rw [List.find?_append]
  cases hf : w.entities.find? (fun e => e.eid = n) with
  | some e => rfl
  | none =>
    by_cases h : nid = n
    · simp [List.find?, Entity.empty, h]
    · simp [List.find?, Entity.empty, h]

/-- Looking up the freshly appended entity finds it, provided every live id
is below it. -/
theorem getEntity_append_fresh (w : World) (nx : Nat)
    (hfresh : ∀ e ∈ w.entities, e.eid ≠ w.nextEntityId) :
    getEntity
      { w with nextEntityId := nx, entities := w.entities ++ [Entity.empty w.nextEntityId] }
      w.nextEntityId = some (Entity.empty w.nextEntityId) := by
  unfold getEntity
  rw [List.find?_append]
  have h1 : w.entities.find? (fun e => e.eid = w.nextEntityId) = none :=
    List.find?_eq_none.mpr (by intro e he; simpa using hfresh e he)
  rw [h1]
  simp [List.find?, Entity.empty]

/-- Route tables are untouched by appending a component-free entity. -/
theorem routes_append_empty (w : World) (nid nx : Nat) :
    World.routes
      { w with nextEntityId := nx, entities := w.entities ++ [Entity.empty nid] } =
      w.routes := by
  unfold World.routes
  rw [List.filterMap_append]
  simp [Entity.empty]

/-- `getFutureStopsFromStop` depends on the store only through its route
table. -/
theorem getFutureStops_congr {w₁ w₂ : World} (h : w₁.routes = w₂.routes)
    (sid : String) :
    getFutureStopsFromStop w₁ sid = getFutureStopsFromStop w₂ sid := by
  unfold getFutureStopsFromStop
  rw [h]

/-! ### Random-draw lemmas -/

theorem draw_good {rng : List ℚ} (h : rngGood rng) :
    (0 ≤ (draw rng).1 ∧ (draw rng).1 < 1) ∧ rngGood (draw rng).2 := by
  cases rng with
  | nil =>
    refine ⟨⟨by norm_num [draw], by norm_num [draw]⟩, ?_⟩
    intro r hr
    simp [draw] at hr
  | cons r rest =>
    exact ⟨h r (List.mem_cons_self r rest), fun x hx => h x (List.mem_cons_of_mem r hx)⟩

theorem jitter_abs_le (x r : ℚ) (h0 : 0 ≤ r) (h1 : r < 1) :
    |x + (r - 1/2) * 20 - x| ≤ 10 := by
  have hx : x + (r - 1/2) * 20 - x = (r - 1/2) * 20 := by ring
  rw [hx, abs_mul]
  have h2 : |r - 1/2| ≤ 1/2 := abs_le.mpr ⟨by linarith, by linarith⟩
  have h20 : |(20:ℚ)| = 20 := by norm_num
  rw [h20]
  calc |r - 1/2| * 20 ≤ (1/2) * 20 := by
        exact mul_le_mul_of_nonneg_right h2 (by norm_num)
    _ = 10 := by norm_num

theorem floor_index_mem (l : List String) (hl : l ≠ []) (r : ℚ) (h0 : 0 ≤ r)
    (h1 : r < 1) :
    ∃ t, jsIndex l (Int.floor (r * (l.length : ℚ))) = some t ∧ t ∈ l := by
  have hlen : 0 < l.length := List.length_pos.mpr hl
  have hnn : (0:ℤ) ≤ ⌊r * (l.length : ℚ)⌋ :=
    Int.floor_nonneg.mpr (mul_nonneg h0 (by positivity))
  have hlt : ⌊r * (l.length : ℚ)⌋ < (l.length : ℤ) := by
    rw [Int.floor_lt]
    push_cast
    calc r * (l.length : ℚ) < 1 * (l.length : ℚ) := by
          exact mul_lt_mul_of_pos_right h1 (by exact_mod_cast hlen)
      _ = (l.length : ℚ) := one_mul _
  have htn : (⌊r * (l.length : ℚ)⌋).toNat < l.length := (Int.toNat_lt hnn).mpr hlt
  refine ⟨l[(⌊r * (l.length : ℚ)⌋).toNat], ?_, List.getElem_mem htn⟩
  unfold jsIndex
  rw [if_pos hnn, List.getElem?_eq_getElem htn]

theorem getEntity_setNpcPos_self {w : World} {i : Nat} {e : Entity}
    (he : getEntity w i = some e) (v : NPCPositionComponent) :
    getEntity (setNpcPos w i v) i = some ({ e with npcPos := some v }) := by
  have heid : e.eid = i := by
    have := List.find?_some he
    simpa using this
  unfold setNpcPos mapEntity getEntity
  rw [find?_eid_map]
  · unfold getEntity at he
    rw [he]
    simp [heid]
  · intro e'
    by_cases h : e'.eid = i <;> simp [h]

theorem getEntity_setNpcData_self {w : World} {i : Nat} {e : Entity}
    (he : getEntity w i = some e) (v : NPCDataComponent) :
    getEntity (setNpcData w i v) i = some ({ e with npcData := some v }) := by
  have heid : e.eid = i := by
    have := List.find?_some he
    simpa using this
  unfold setNpcData mapEntity getEntity
  rw [find?_eid_map]
  · unfold getEntity at he
    rw [he]
    simp [heid]
  · intro e'
    by_cases h : e'.eid = i <;> simp [h]

theorem spawnPick_rng_good {w : World} {sid : String} {s : List ℚ}
    (hs : rngGood s) : rngGood (spawnPick w sid s).2 := by
  simp only [spawnPick]
  split_ifs <;> first
    | exact hs
    | exact (draw_good hs).2

theorem spawnPick_mem {w : World} {sid : String} {s : List ℚ} (hs : rngGood s)
    (hne : getFutureStopsFromStop w sid ≠ []) :
    ∃ t, (spawnPick w sid s).1 = some t ∧ t ∈ getFutureStopsFromStop w sid := by
  have hlen : 0 < (getFutureStopsFromStop w sid).length := List.length_pos.mpr hne
  simp only [spawnPick, if_pos hlen]
  exact floor_index_mem _ hne _ (draw_good hs).1.1 (draw_good hs).1.2

/-- At the entity ceiling `spawnNPC` is a no-op: the `-1` sentinel returns
before any draw is consumed or any component attached. -/
theorem spawnNPC_cap (sid : String) (x y now : ℚ) (w : World) (rng : List ℚ)
    (h : w.maxEntities ≤ w.entities.length) :
    spawnNPC sid x y now w rng = (w, rng) := by
  simp only [spawnNPC, createEntity, if_pos h]

/-- Below the entity ceiling, `spawnNPC` creates exactly one entity — a
`WAITING` rider at the stop, jittered at most 10 units from the stop centre,
whose destination lies strictly later on some route through the stop
whenever such stops exist — and touches no stop component and no spawn
timer. -/
theorem spawnNPC_success_spec (sid : String) (x y now : ℚ) (w : World)
    (rng : List ℚ) (hlt : w.entities.length < w.maxEntities)
    (hfresh : freshIds w) (hrng : rngGood rng) :
    ((spawnNPC sid x y now w rng).1.entities.length = w.entities.length + 1) ∧
    (∀ n, getStopData (spawnNPC sid x y now w rng).1 n = getStopData w n) ∧
    ((spawnNPC sid x y now w rng).1.spawnTimers = w.spawnTimers) ∧
    ((getNpcData (spawnNPC sid x y now w rng).1 w.nextEntityId).map
       (fun nd => (nd.state, nd.currentStopId, nd.busEntityId)) =
       some (NPCState.waiting, some sid, none)) ∧
    (∀ np, getNpcPos (spawnNPC sid x y now w rng).1 w.nextEntityId = some np →
       |np.x - x| ≤ 10 ∧ |np.y - y| ≤ 10 ∧
       (getFutureStopsFromStop w sid ≠ [] →
          ∃ t, np.targetStopId = some t ∧ t ∈ getFutureStopsFromStop w sid)) ∧
    ((getNpcPos (spawnNPC sid x y now w rng).1 w.nextEntityId).isSome = true) := by
  have hnotle : ¬(w.maxEntities ≤ w.entities.length) := not_le.mpr hlt
  have hne : ∀ e ∈ w.entities, e.eid ≠ w.nextEntityId :=
    fun e he => Nat.ne_of_lt (hfresh e he)
  have hA := getEntity_append_fresh w (w.nextEntityId + 1) hne
  simp only [spawnNPC, createEntity, if_neg hnotle]
  refine ⟨?_, ?_, rfl, ?_, ?_, ?_⟩
  · simp [setNpcData, setNpcPos, mapEntity]
  · intro n
    rw [getStopData_setNpcData, getStopData_setNpcPos, getStopData_append_empty]
  · unfold getNpcData
    rw [getEntity_setNpcData_self (getEntity_setNpcPos_self hA _)]
    rfl
  · intro np hnp
    unfold getNpcPos at hnp
    rw [getEntity_setNpcData_self (getEntity_setNpcPos_self hA _)] at hnp
    simp only [Option.bind_some] at hnp
    rcases Option.some_injective _ hnp.symm with rfl
    refine ⟨?_, ?_, ?_⟩
    · exact jitter_abs_le x _
        (draw_good (spawnPick_rng_good (draw_good hrng).2)).1.1
        (draw_good (spawnPick_rng_good (draw_good hrng).2)).1.2
    · exact jitter_abs_le y _
        (draw_good (draw_good (spawnPick_rng_good (draw_good hrng).2)).2).1.1
        (draw_good (draw_good (spawnPick_rng_good (draw_good hrng).2)).2).1.2
    · intro hfut
      have hroutes := routes_append_empty w w.nextEntityId (w.nextEntityId + 1)
      have hcongr := getFutureStops_congr hroutes sid
      have hfut2 : getFutureStopsFromStop
          { w with nextEntityId := w.nextEntityId + 1, entities := w.entities ++ [Entity.empty w.nextEntityId] }
          sid ≠ [] := by
        rw [hcongr]
        exact hfut
      obtain ⟨t, ht1, ht2⟩ := spawnPick_mem (draw_good hrng).2 hfut2
      refine ⟨t, ht1, ?_⟩
      rw [hcongr] at ht2
      exact ht2
  · unfold getNpcPos
    rw [getEntity_setNpcData_self (getEntity_setNpcPos_self hA _)]
    rfl

theorem incStopQueue_length (w : World) (i : Nat) :
    (incStopQueue w i).entities.length = w.entities.length := by
  simp [incStopQueue, mapEntity]

/-- Reduction of the spawner's per-stop step in the firing case: queue below
the ceiling and accumulated timer at or past the interval. -/
theorem spawnerProcessStop_fires
    (period : TimePeriod) (now dt : ℚ) (w : World) (rng : List ℚ) (eid : Nat)
    (sd : StopDataComponent) (sp : StopPositionComponent)
    (hsd : getStopData w eid = some sd) (hsp : getStopPos w eid = some sp)
    (hq : sd.waitingPassengers < 100)
    (hfire : jsOr (sd.spawnRates.get period) 5 ≤ (mapGet w.spawnTimers sd.id).getD 0 + dt) :
    spawnerProcessStop period now dt (w, rng) eid =
      (let w1 : World := { w with spawnTimers :=
          if (mapGet w.spawnTimers sd.id).isNone then mapSet w.spawnTimers sd.id 0
          else w.spawnTimers }
       let p := spawnNPC sd.id sp.x sp.y now w1 rng
       let w2 := incStopQueue p.1 eid
       ({ w2 with spawnTimers := mapSet w2.spawnTimers sd.id 0 }, p.2)) := by
  simp only [spawnerProcessStop, hsd, hsp]
  rw [if_neg (show ¬(100 ≤ sd.waitingPassengers) by omega)]
  have hcond : jsOr (sd.spawnRates.get period) 5 ≤
      (mapGet (if (mapGet w.spawnTimers sd.id).isNone then mapSet w.spawnTimers sd.id 0
        else w.spawnTimers) sd.id).getD 0 + dt := by
    rw [timerRead_init]
    exact hfire
  rw [if_pos hcond]

/-- C9 (amended): each time a stop's spawn timer reaches the current
period's interval while the queue counter is below its ceiling, the timer is
reset and the stop's queue counter is incremented by exactly one — whether
or not a rider could actually be created.  A rider is created exactly when
the store is below its entity ceiling, and then it is exactly one entity, in
`WAITING` state at this stop with no vehicle reference, positioned within
the 10-unit jitter of the stop, its destination chosen among the stops
strictly later on some route through this stop whenever such stops exist
(with the permissive any-other-stop fallback otherwise); at the entity
ceiling no rider appears, yet the queue counter still moves. -/
theorem spawner_fire_spec
    (period : TimePeriod) (now dt : ℚ) (w : World) (rng : List ℚ) (eid : Nat)
    (sd : StopDataComponent) (sp : StopPositionComponent)
    (hsd : getStopData w eid = some sd) (hsp : getStopPos w eid = some sp)
    (hq : sd.waitingPassengers < 100)
    (hfire : jsOr (sd.spawnRates.get period) 5 ≤ (mapGet w.spawnTimers sd.id).getD 0 + dt)
    (hfresh : freshIds w) (hrng : rngGood rng) :
    ((getStopData (spawnerProcessStop period now dt (w, rng) eid).1 eid).map
       (fun s => s.waitingPassengers) = some (sd.waitingPassengers + 1)) ∧
    (mapGet (spawnerProcessStop period now dt (w, rng) eid).1.spawnTimers sd.id = some 0) ∧
    (w.entities.length < w.maxEntities →
       ((spawnerProcessStop period now dt (w, rng) eid).1.entities.length =
          w.entities.length + 1) ∧
       ((getNpcData (spawnerProcessStop period now dt (w, rng) eid).1 w.nextEntityId).map
          (fun nd => (nd.state, nd.currentStopId, nd.busEntityId)) =
          some (NPCState.waiting, some sd.id, none)) ∧
       (∀ np, getNpcPos (spawnerProcessStop period now dt (w, rng) eid).1 w.nextEntityId =
            some np →
          |np.x - sp.x| ≤ 10 ∧ |np.y - sp.y| ≤ 10 ∧
          (getFutureStopsFromStop w sd.id ≠ [] →
             ∃ t, np.targetStopId = some t ∧ t ∈ getFutureStopsFromStop w sd.id)) ∧
       ((getNpcPos (spawnerProcessStop period now dt (w, rng) eid).1 w.nextEntityId).isSome =
          true)) ∧
    (w.maxEntities ≤ w.entities.length →
       ((spawnerProcessStop period now dt (w, rng) eid).1.entities.length =
          w.entities.length) ∧
       (∀ n, getNpcData (spawnerProcessStop period now dt (w, rng) eid).1 n =
          getNpcData w n)) := by
  rw [spawnerProcessStop_fires period now dt w rng eid sd sp hsd hsp hq hfire]
  set w1 : World := { w with spawnTimers :=
      if (mapGet w.spawnTimers sd.id).isNone then mapSet w.spawnTimers sd.id 0
      else w.spawnTimers } with hw1
  have hsd1 : getStopData w1 eid = some sd := hsd
  have hfresh1 : freshIds w1 := hfresh
  refine ⟨?_, ?_, ?_, ?_⟩
  · show (getStopData (incStopQueue (spawnNPC sd.id sp.x sp.y now w1 rng).1 eid) eid).map
      (fun s => s.waitingPassengers) = some (sd.waitingPassengers + 1)
    rw [getStopData_incStopQueue_self]
    rcases lt_or_le w.entities.length w.maxEntities with hlt | hge
    · have hlt1 : w1.entities.length < w1.maxEntities := hlt
      have hspec := spawnNPC_success_spec sd.id sp.x sp.y now w1 rng hlt1 hfresh1 hrng
      rw [hspec.2.1 eid, hsd1]
      rfl
    · have hge1 : w1.maxEntities ≤ w1.entities.length := hge
      rw [spawnNPC_cap _ _ _ _ _ _ hge1, hsd1]
      rfl
  · exact mapGet_mapSet_self _ _ _
  · intro hlt
    have hlt1 : w1.entities.length < w1.maxEntities := hlt
    have hspec := spawnNPC_success_spec sd.id sp.x sp.y now w1 rng hlt1 hfresh1 hrng
    have hnext : w1.nextEntityId = w.nextEntityId := rfl
    refine ⟨?_, ?_, ?_, ?_⟩
    · show (incStopQueue (spawnNPC sd.id sp.x sp.y now w1 rng).1 eid).entities.length = _
      rw [incStopQueue_length]
      exact hspec.1
    · show (getNpcData (incStopQueue (spawnNPC sd.id sp.x sp.y now w1 rng).1 eid)
        w.nextEntityId).map _ = _
      rw [getNpcData_incStopQueue]
      exact hspec.2.2.2.1
    · intro np hnp
      have hnp2 : getNpcPos (spawnNPC sd.id sp.x sp.y now w1 rng).1 w.nextEntityId =
          some np := by
        rw [← getNpcPos_incStopQueue (spawnNPC sd.id sp.x sp.y now w1 rng).1 eid]
        exact hnp
      exact hspec.2.2.2.2.1 np hnp2
    · show (getNpcPos (incStopQueue (spawnNPC sd.id sp.x sp.y now w1 rng).1 eid)
        w.nextEntityId).isSome = true
      rw [getNpcPos_incStopQueue]
      exact hspec.2.2.2.2.2
  · intro hge
    have hge1 : w1.maxEntities ≤ w1.entities.length := hge
    constructor
    · show (incStopQueue (spawnNPC sd.id sp.x sp.y now w1 rng).1 eid).entities.length =
        w.entities.length
      rw [spawnNPC_cap _ _ _ _ _ _ hge1, incStopQueue_length]
    · intro n
      show getNpcData (incStopQueue (spawnNPC sd.id sp.x sp.y now w1 rng).1 eid) n =
        getNpcData w n
      rw [spawnNPC_cap _ _ _ _ _ _ hge1, getNpcData_incStopQueue]
      rfl

/-- Closed instantiation of `spawner_fire_spec`: one stop with interval 1 s,
queue 0, a 2 s tick, draws of 1/2. -/
theorem spawner_fire_spec_witness :
    ((getStopData (spawnerProcessStop TimePeriod.morning 0 2
        (spawnWorld, [1/2, 1/2, 1/2, 1/2]) 0).1 0).map
       (fun s => s.waitingPassengers) =
       some ((mkStopData ("s1") ("Stop 1") 0 fastRates).waitingPassengers + 1)) ∧
    (mapGet (spawnerProcessStop TimePeriod.morning 0 2
        (spawnWorld, [1/2, 1/2, 1/2, 1/2]) 0).1.spawnTimers
       (mkStopData ("s1") ("Stop 1") 0 fastRates).id = some 0) ∧
    (spawnWorld.entities.length < spawnWorld.maxEntities →
       ((spawnerProcessStop TimePeriod.morning 0 2
           (spawnWorld, [1/2, 1/2, 1/2, 1/2]) 0).1.entities.length =
          spawnWorld.entities.length + 1) ∧
       ((getNpcData (spawnerProcessStop TimePeriod.morning 0 2
            (spawnWorld, [1/2, 1/2, 1/2, 1/2]) 0).1 spawnWorld.nextEntityId).map
          (fun nd => (nd.state, nd.currentStopId, nd.busEntityId)) =
          some (NPCState.waiting, some (mkStopData ("s1") ("Stop 1") 0 fastRates).id, none)) ∧
       (∀ np, getNpcPos (spawnerProcessStop TimePeriod.morning 0 2
            (spawnWorld, [1/2, 1/2, 1/2, 1/2]) 0).1 spawnWorld.nextEntityId = some np →
          |np.x - (StopPositionComponent.mk 0 0).x| ≤ 10 ∧
          |np.y - (StopPositionComponent.mk 0 0).y| ≤ 10 ∧
          (getFutureStopsFromStop spawnWorld (mkStopData ("s1") ("Stop 1") 0 fastRates).id ≠ [] →
             ∃ t, np.targetStopId = some t ∧
               t ∈ getFutureStopsFromStop spawnWorld (mkStopData ("s1") ("Stop 1") 0 fastRates).id)) ∧
       ((getNpcPos (spawnerProcessStop TimePeriod.morning 0 2
            (spawnWorld, [1/2, 1/2, 1/2, 1/2]) 0).1 spawnWorld.nextEntityId).isSome = true)) ∧
    (spawnWorld.maxEntities ≤ spawnWorld.entities.length →
       ((spawnerProcessStop TimePeriod.morning 0 2
           (spawnWorld, [1/2, 1/2, 1/2, 1/2]) 0).1.entities.length =
          spawnWorld.entities.length) ∧
       (∀ n, getNpcData (spawnerProcessStop TimePeriod.morning 0 2
           (spawnWorld, [1/2, 1/2, 1/2, 1/2]) 0).1 n = getNpcData spawnWorld n)) :=
  spawner_fire_spec TimePeriod.morning 0 2 spawnWorld [1/2, 1/2, 1/2, 1/2] 0
    (mkStopData ("s1") ("Stop 1") 0 fastRates) (StopPositionComponent.mk 0 0)
    rfl rfl (by decide)
    (by norm_num [spawnWorld, mkWorld, mkStopData, fastRates, SpawnRates.get, jsOr, mapGet])
    (by
      unfold freshIds
      intro e he
      simp only [spawnWorld, mkWorld, List.mem_singleton] at he
      rw [he]
      decide)
    (by
      intro r hr
      simp only [List.mem_cons, List.not_mem_nil, or_false] at hr
      rcases hr with h | h | h | h <;> rw [h] <;> norm_num)

/-- C3 (counterexample): two runs of the same logic tick from the same
initial store, with the same elapsed time and no authoring calls, produce
different component states when their `Math.random` draws differ: the
spawner fires at the single stop and writes a position jitter taken from
the unseeded random stream (x = −10 under one stream, x = 0 under the
other), so the states are not bit-identical. -/
theorem two_runs_diverge_on_random_stream :
    ((getNpcPos (logicTick idMath TimePeriod.morning 0 2 spawnWorld
        [0, 0, 0, 0]) 1).map (fun np => np.x) = some (-10)) ∧
    ((getNpcPos (logicTick idMath TimePeriod.morning 0 2 spawnWorld
        [0, 1/2, 0, 0]) 1).map (fun np => np.x) = some 0) ∧
    logicTick idMath TimePeriod.morning 0 2 spawnWorld [0, 0, 0, 0] ≠
      logicTick idMath TimePeriod.morning 0 2 spawnWorld [0, 1/2, 0, 0] := by
  have hA : (getNpcPos (logicTick idMath TimePeriod.morning 0 2 spawnWorld
      [0, 0, 0, 0]) 1).map (fun np => np.x) = some (-10) := by
    norm_num [logicTick, busMovementUpdate, busLogicUpdate, npcSpawnerUpdate,
      spawnerMatchIds, spawnerProcessStop, spawnNPC, spawnPick, createEntity,
      incStopQueue, npcInteractionUpdate, npcInteractionProcess, getBusData,
      getStopData, getStopPos, getEntity, getNpcPos, setNpcPos, setNpcData,
      mapEntity, spawnWorld, mkWorld, mkStopEntity, mkStopData, fastRates,
      SpawnRates.get, jsOr, mapGet, mapSet, draw, Entity.empty,
      getFutureStopsFromStop, otherStopIds, World.routes]
  have hB : (getNpcPos (logicTick idMath TimePeriod.morning 0 2 spawnWorld
      [0, 1/2, 0, 0]) 1).map (fun np => np.x) = some 0 := by
    norm_num [logicTick, busMovementUpdate, busLogicUpdate, npcSpawnerUpdate,
      spawnerMatchIds, spawnerProcessStop, spawnNPC, spawnPick, createEntity,
      incStopQueue, npcInteractionUpdate, npcInteractionProcess, getBusData,
      getStopData, getStopPos, getEntity, getNpcPos, setNpcPos, setNpcData,
      mapEntity, spawnWorld, mkWorld, mkStopEntity, mkStopData, fastRates,
      SpawnRates.get, jsOr, mapGet, mapSet, draw, Entity.empty,
      getFutureStopsFromStop, otherStopIds, World.routes]
  refine ⟨hA, hB, ?_⟩
  intro heq
  rw [heq] at hA
  rw [hA] at hB
  have : (-10 : ℚ) = 0 := by
    have := Option.some_injective _ hB
    exact this
  norm_num at this

/-- A stop that cannot fire leaves the store unchanged except possibly for
its own spawn-timer entry, consumes no random draw, and its result does not
depend on the stream at all. -/
theorem spawnerProcessStop_noFire
    (period : TimePeriod) (now dt : ℚ) (w : World) (eid : Nat)
    (h : noFireB period dt w eid = true) :
    ∃ t : List (String × ℚ),
      (∀ rng, spawnerProcessStop period now dt (w, rng) eid =
        ({ w with spawnTimers := t }, rng)) ∧
      (∀ k, (∀ sd, getStopData w eid = some sd → k ≠ sd.id) →
        mapGet t k = mapGet w.spawnTimers k) := by
  unfold noFireB at h
  cases hsd : getStopData w eid with
  | none =>
    refine ⟨w.spawnTimers, ?_, fun k _ => rfl⟩
    intro rng
    simp only [spawnerProcessStop, hsd]
  | some sd =>
    rw [hsd] at h
    cases hsp : getStopPos w eid with
    | none =>
      refine ⟨w.spawnTimers, ?_, fun k _ => rfl⟩
      intro rng
      simp only [spawnerProcessStop, hsd, hsp]
    | some sp =>
      by_cases hq : 100 ≤ sd.waitingPassengers
      · refine ⟨w.spawnTimers, ?_, fun k _ => rfl⟩
        intro rng
        simp only [spawnerProcessStop, hsd, hsp, if_pos hq]
      · have hlt : (mapGet w.spawnTimers sd.id).getD 0 + dt <
            jsOr (sd.spawnRates.get period) 5 := by
          have h' := h
          simp only [Bool.or_eq_true, decide_eq_true_eq] at h'
          rcases h' with h1 | h2
          · exact absurd h1 hq
          · exact h2
        have hfire : ¬(jsOr (sd.spawnRates.get period) 5 ≤
            (mapGet (if (mapGet w.spawnTimers sd.id).isNone then
              mapSet w.spawnTimers sd.id 0 else w.spawnTimers) sd.id).getD 0 + dt) := by
          rw [timerRead_init]
          exact not_le.mpr hlt
        refine ⟨mapSet
          (if (mapGet w.spawnTimers sd.id).isNone then mapSet w.spawnTimers sd.id 0
            else w.spawnTimers) sd.id
          ((mapGet (if (mapGet w.spawnTimers sd.id).isNone then
              mapSet w.spawnTimers sd.id 0 else w.spawnTimers) sd.id).getD 0 + dt),
          ?_, ?_⟩
        · intro rng
          simp only [spawnerProcessStop, hsd, hsp]
          rw [if_neg hq, if_neg hfire]
        · intro k hk
          have hkne : k ≠ sd.id := hk sd rfl
          rw [mapGet_mapSet_ne _ _ _ _ hkne]
          cases hnone : (mapGet w.spawnTimers sd.id).isNone
          · simp only [hnone, Bool.false_eq_true, if_false]
          · simp only [hnone, if_true]
            rw [mapGet_mapSet_ne _ _ _ _ hkne]

/-- When no stop can fire, the spawner's fold ignores the random stream
entirely: the resulting store is the stream-independent one and the stream
is returned untouched. -/
theorem spawnerFold_noFire (period : TimePeriod) (now dt : ℚ) :
    ∀ (ids : List Nat) (w : World),
      (∀ i ∈ ids, noFireB period dt w i = true) →
      (stopDataIds w ids).Nodup →
      ∀ rng, ids.foldl (spawnerProcessStop period now dt) (w, rng) =
        ((ids.foldl (spawnerProcessStop period now dt) (w, [])).1, rng)
  | [], w, _, _, rng => rfl
  | i :: ids, w, hall, hnd, rng => by
    obtain ⟨t, hstep, hpres⟩ :=
      spawnerProcessStop_noFire period now dt w i (hall i (by simp))
    rw [List.foldl_cons, List.foldl_cons, hstep rng, hstep []]
    have hall' : ∀ j ∈ ids, noFireB period dt { w with spawnTimers := t } j = true := by
      intro j hj
      have hj0 := hall j (by simp [hj])
      unfold noFireB at hj0 ⊢
      have hget : getStopData { w with spawnTimers := t } j = getStopData w j := rfl
      rw [hget]
      cases hsd' : getStopData w j with
      | none => rfl
      | some sdj =>
        rw [hsd'] at hj0
        have hne : ∀ sd₀, getStopData w i = some sd₀ → sdj.id ≠ sd₀.id := by
          intro sd₀ hsd₀ heqid
          have hcons : stopDataIds w (i :: ids) = sd₀.id :: stopDataIds w ids := by
            simp [stopDataIds, List.filterMap_cons, hsd₀]
          rw [hcons] at hnd
          apply (List.nodup_cons.mp hnd).1
          rw [← heqid]
          exact List.mem_filterMap.mpr ⟨j, hj, by rw [hsd']; rfl⟩
        show (decide (100 ≤ sdj.waitingPassengers) ||
          decide ((mapGet t sdj.id).getD 0 + dt < jsOr (sdj.spawnRates.get period) 5)) = true
        rw [hpres sdj.id hne]
        exact hj0
    have hnd' : (stopDataIds { w with spawnTimers := t } ids).Nodup := by
      have heq : stopDataIds { w with spawnTimers := t } ids = stopDataIds w ids := rfl
      rw [heq]
      cases hsd0 : getStopData w i with
      | none =>
        have hcons : stopDataIds w (i :: ids) = stopDataIds w ids := by
          simp [stopDataIds, List.filterMap_cons, hsd0]
        rw [hcons] at hnd
        exact hnd
      | some sd₀ =>
        have hcons : stopDataIds w (i :: ids) = sd₀.id :: stopDataIds w ids := by
          simp [stopDataIds, List.filterMap_cons, hsd0]
        rw [hcons] at hnd
        exact (List.nodup_cons.mp hnd).2
    exact spawnerFold_noFire period now dt ids { w with spawnTimers := t } hall' hnd' rng

/-- C3 (amended): the tick is a pure function of the store state, the
elapsed time and the `Math.random`/`Date.now` draws — two runs from the same
store with the same elapsed time coincide whenever their draws coincide, and
on ticks where no stop's spawn timer fires (the spawner is the sole consumer
of randomness) the post-state does not depend on the random stream at all,
provided distinct stop entities carry distinct logical ids. -/
theorem tick_deterministic_without_spawn
    (m : JsMath) (period : TimePeriod) (now dt : ℚ) (w : World)
    (rng₁ rng₂ : List ℚ)
    (hnf : ∀ i ∈ spawnerMatchIds (busLogicUpdate dt (busMovementUpdate m dt w)),
       noFireB period dt (busLogicUpdate dt (busMovementUpdate m dt w)) i = true)
    (hnd : (stopDataIds (busLogicUpdate dt (busMovementUpdate m dt w))
       (spawnerMatchIds (busLogicUpdate dt (busMovementUpdate m dt w)))).Nodup) :
    logicTick m period now dt w rng₁ = logicTick m period now dt w rng₂ := by
  simp only [logicTick, npcSpawnerUpdate]
  rw [spawnerFold_noFire period now dt _ _ hnf hnd rng₁,
      spawnerFold_noFire period now dt _ _ hnf hnd rng₂]

/-- Closed instantiation of `tick_deterministic_without_spawn` on a store
whose single stop sits at the queue ceiling, so no spawn can fire: two runs
with different random streams produce the identical store. -/
theorem tick_deterministic_without_spawn_witness :
    logicTick idMath TimePeriod.morning 0 (1/60) quietWorld [] =
      logicTick idMath TimePeriod.morning 0 (1/60) quietWorld [1/2] :=
  tick_deterministic_without_spawn idMath TimePeriod.morning 0 (1/60) quietWorld
    [] [1/2] (by decide) (by decide)

/-! ### Preservation machinery for the stop-index bound invariant -/

theorem busRef_refl (w : World) : busRefPreserved w w :=
  ⟨rfl, fun e₂ he₂ d₂ hd₂ => ⟨e₂, he₂, d₂, hd₂, rfl, rfl⟩⟩

theorem busRef_trans {w₁ w₂ w₃ : World} (h12 : busRefPreserved w₁ w₂)
    (h23 : busRefPreserved w₂ w₃) : busRefPreserved w₁ w₃ := by
  refine ⟨h23.1.trans h12.1, ?_⟩
  intro e₃ he₃ d₃ hd₃
  obtain ⟨e₂, he₂, d₂, hd₂, hi₂, hr₂⟩ := h23.2 e₃ he₃ d₃ hd₃
  obtain ⟨e₁, he₁, d₁, hd₁, hi₁, hr₁⟩ := h12.2 e₂ he₂ d₂ hd₂
  exact ⟨e₁, he₁, d₁, hd₁, hi₂.trans hi₁, hr₂.trans hr₁⟩

theorem busRef_of_entities_eq {w v : World} (h : v.entities = w.entities) :
    busRefPreserved w v := by
  refine ⟨?_, ?_⟩
  · show v.entities.filterMap _ = w.entities.filterMap _
    rw [h]
  · intro e₂ he₂ d₂ hd₂
    rw [h] at he₂
    exact ⟨e₂, he₂, d₂, hd₂, rfl, rfl⟩

theorem filterMap_routeData_map (f : Entity → Entity)
    (hf : ∀ e, (f e).routeData = e.routeData) :
    ∀ l : List Entity,
      (l.map f).filterMap (fun e => e.routeData) = l.filterMap (fun e => e.routeData)
  | [] => rfl
  | e :: l => by
    simp only [List.map_cons, List.filterMap_cons, hf e]
    cases e.routeData <;> simp [filterMap_routeData_map f hf l]

theorem busRef_of_map {w v : World} (f : Entity → Entity)
    (hent : v.entities = w.entities.map f)
    (hroute : ∀ e, (f e).routeData = e.routeData)
    (hbus : ∀ e, (f e).busData = e.busData) :
    busRefPreserved w v := by
  refine ⟨?_, ?_⟩
  · show v.entities.filterMap _ = w.entities.filterMap _
    rw [hent]
    exact filterMap_routeData_map f hroute _
  · intro e₂ he₂ d₂ hd₂
    rw [hent] at he₂
    obtain ⟨e₁, he₁, rfl⟩ := List.mem_map.mp he₂
    refine ⟨e₁, he₁, d₂, ?_, rfl, rfl⟩
    rw [← hbus e₁]
    exact hd₂

theorem busRef_mapEntity {w : World} (i : Nat) (f : Entity → Entity)
    (hroute : ∀ e, (f e).routeData = e.routeData)
    (hbus : ∀ e, (f e).busData = e.busData) :
    busRefPreserved w (mapEntity w i f) := by
  refine busRef_of_map (fun e => if e.eid = i then f e else e) rfl ?_ ?_
  · intro e
    by_cases h : e.eid = i <;> simp [h, hroute]
  · intro e
    by_cases h : e.eid = i <;> simp [h, hbus]

theorem busRef_setBusData {w v : World} (hwv : busRefPreserved w v) (i : Nat)
    (d : BusDataComponent)
    (hd : ∃ e₁ ∈ w.entities, ∃ d₁, e₁.busData = some d₁ ∧
      d.currentStopIndex = d₁.currentStopIndex ∧ d.routeId = d₁.routeId) :
    busRefPreserved w (setBusData v i d) := by
  refine ⟨?_, ?_⟩
  · show (setBusData v i d).entities.filterMap _ = w.entities.filterMap _
    have h1 : (setBusData v i d).entities.filterMap (fun e => e.routeData) =
        v.entities.filterMap (fun e => e.routeData) := by
      show (v.entities.map _).filterMap _ = _
      refine filterMap_routeData_map _ ?_ _
      intro e
      by_cases h : e.eid = i <;> simp [h]
    exact h1.trans hwv.1
  · intro e₂ he₂ d₂ hd₂
    have he₂' : e₂ ∈ v.entities.map (fun e => if e.eid = i then
        { e with busData := some d } else e) := he₂
    obtain ⟨e₁, he₁, rfl⟩ := List.mem_map.mp he₂'
    by_cases h : e₁.eid = i
    · rw [if_pos h] at hd₂
      simp only at hd₂
      obtain ⟨e₀, he₀, d₀, hd₀, hi₀, hr₀⟩ := hd
      rcases Option.some_injective _ hd₂ with rfl
      exact ⟨e₀, he₀, d₀, hd₀, hi₀, hr₀⟩
    · rw [if_neg h] at hd₂
      exact hwv.2 e₁ he₁ d₂ hd₂

theorem busRef_append_empty (w : World) (nid nx : Nat) :
    busRefPreserved w
      { w with nextEntityId := nx, entities := w.entities ++ [Entity.empty nid] } := by
  refine ⟨routes_append_empty w nid nx, ?_⟩
  intro e₂ he₂ d₂ hd₂
  rcases List.mem_append.mp he₂ with h | h
  · exact ⟨e₂, h, d₂, hd₂, rfl, rfl⟩
  · rcases List.mem_singleton.mp h with rfl
    cases hd₂

theorem busRef_foldl {α : Type} (step : World → α → World)
    (hstep : ∀ w a, busRefPreserved w (step w a)) :
    ∀ (l : List α) (w : World), busRefPreserved w (l.foldl step w)
  | [], w => busRef_refl w
  | a :: l, w => by
    rw [List.foldl_cons]
    exact busRef_trans (hstep w a) (busRef_foldl step hstep l (step w a))

theorem allBounds_transfer {w v : World} (hwv : busRefPreserved w v)
    (hw : allBusesInBounds w) : allBusesInBounds v := by
  intro e₂ he₂ d₂ hd₂
  obtain ⟨e₁, he₁, d₁, hd₁, hi, hr⟩ := hwv.2 e₂ he₂ d₂ hd₂
  intro rid r h1 h2
  rw [hr] at h1
  have h2' : w.routes.find? (fun x => x.id = rid) = some r := by
    rw [← hwv.1]
    exact h2
  have := hw e₁ he₁ d₁ hd₁ rid r h1 h2'
  rw [hi]
  exact this

theorem foldl_world_preserves {α : Type} (P : World → Prop)
    (step : World → α → World) (h : ∀ w a, P w → P (step w a)) :
    ∀ (l : List α) (w : World), P w → P (l.foldl step w)
  | [], _, hw => hw
  | a :: l, w, hw => by
    rw [List.foldl_cons]
    exact foldl_world_preserves P step h l (step w a) (h w a hw)

theorem getEntity_of_getBusData {w : World} {n : Nat} {d : BusDataComponent}
    (h : getBusData w n = some d) :
    ∃ e ∈ w.entities, e.busData = some d := by
  unfold getBusData at h
  cases he : getEntity w n with
  | none => rw [he] at h; cases h
  | some e =>
    rw [he] at h
    exact ⟨e, List.mem_of_find?_eq_some he, h⟩

/-- `advanceToNextStop` keeps the route reference and keeps the stop index
inside the route's bounds: wrapping to 0, clamping to the last index, or
stepping below the length. -/
theorem advance_bounds (w : World) (d : BusDataComponent)
    (v : BusVelocityComponent) (hd : stopIndexOk w.routes d) :
    stopIndexOk w.routes (advanceToNextStop w d v).1 ∧
    (advanceToNextStop w d v).1.routeId = d.routeId := by
  unfold advanceToNextStop
  cases hrid : d.routeId with
  | none =>
    refine ⟨?_, rfl⟩
    intro rid r h1 _
    simp only at h1
    exact Option.noConfusion h1
  | some rid₀ =>
    simp only
    cases hf : findRouteById w rid₀ with
    | none =>
      simp only
      rw [if_pos trivial]
      refine ⟨?_, rfl⟩
      intro rid r h1 h2
      simp only at h1
      rcases Option.some_injective _ h1 with rfl
      unfold findRouteById at hf
      rw [hf] at h2
      exact Option.noConfusion h2
    | some r₀ =>
      simp only
      by_cases hz : ((r₀.stopIds.length : Int)) = 0
      · rw [if_pos hz]
        refine ⟨?_, rfl⟩
        intro rid r h1 h2
        simp only at h1
        rcases Option.some_injective _ h1 with rfl
        unfold findRouteById at hf
        rw [hf] at h2
        rcases Option.some_injective _ h2 with rfl
        exact hd rid₀ r₀ hrid hf
      · rw [if_neg hz]
        have hbound := hd rid₀ r₀ hrid hf
        by_cases hge : (r₀.stopIds.length : Int) ≤ d.currentStopIndex + 1
        · rw [if_pos hge]
          cases hl : r₀.loop with
          | true =>
            rw [if_pos rfl]
            refine ⟨?_, rfl⟩
            intro rid r h1 h2
            simp only at h1
            rcases Option.some_injective _ h1 with rfl
            unfold findRouteById at hf
            rw [hf] at h2
            rcases Option.some_injective _ h2 with rfl
            simp only
            omega
          | false =>
            rw [if_neg Bool.false_ne_true]
            refine ⟨?_, rfl⟩
            intro rid r h1 h2
            simp only at h1
            rcases Option.some_injective _ h1 with rfl
            unfold findRouteById at hf
            rw [hf] at h2
            rcases Option.some_injective _ h2 with rfl
            simp only
            have hnn : (0:Int) ≤ (r₀.stopIds.length : Int) := Int.ofNat_nonneg _
            omega
        · rw [if_neg hge]
          refine ⟨?_, rfl⟩
          intro rid r h1 h2
          simp only at h1
          rcases Option.some_injective _ h1 with rfl
          unfold findRouteById at hf
          rw [hf] at h2
          rcases Option.some_injective _ h2 with rfl
          simp only
          have := hbound
          omega

theorem routes_setBusData (w : World) (i : Nat) (d : BusDataComponent) :
    (setBusData w i d).routes = w.routes := by
  show (w.entities.map _).filterMap _ = _
  refine filterMap_routeData_map _ ?_ _
  intro e
  by_cases h : e.eid = i <;> simp [h]

theorem allBounds_setBusData {w : World} (hw : allBusesInBounds w) (i : Nat)
    (d : BusDataComponent) (hd : stopIndexOk w.routes d) :
    allBusesInBounds (setBusData w i d) := by
  intro e₂ he₂ d₂ hd₂
  have hroutes := routes_setBusData w i d
  have he₂' : e₂ ∈ w.entities.map
      (fun e => if e.eid = i then { e with busData := some d } else e) := he₂
  obtain ⟨e₁, he₁, rfl⟩ := List.mem_map.mp he₂'
  by_cases h : e₁.eid = i
  · rw [if_pos h] at hd₂
    simp only at hd₂
    rcases Option.some_injective _ hd₂ with rfl
    intro rid r h1 h2
    rw [hroutes] at h2
    exact hd rid r h1 h2
  · rw [if_neg h] at hd₂
    intro rid r h1 h2
    rw [hroutes] at h2
    exact hw e₁ he₁ d₂ hd₂ rid r h1 h2

theorem busRef_setBusVel (v : World) (i : Nat) (p : BusVelocityComponent) :
    busRefPreserved v (setBusVel v i p) :=
  busRef_mapEntity i _ (fun _ => rfl) (fun _ => rfl)

theorem busRef_setBusPos (v : World) (i : Nat) (p : BusPositionComponent) :
    busRefPreserved v (setBusPos v i p) :=
  busRef_mapEntity i _ (fun _ => rfl) (fun _ => rfl)

theorem busRef_setNpcPos (v : World) (i : Nat) (p : NPCPositionComponent) :
    busRefPreserved v (setNpcPos v i p) :=
  busRef_mapEntity i _ (fun _ => rfl) (fun _ => rfl)

theorem busRef_setNpcData (v : World) (i : Nat) (p : NPCDataComponent) :
    busRefPreserved v (setNpcData v i p) :=
  busRef_mapEntity i _ (fun _ => rfl) (fun _ => rfl)

theorem busRef_incStopQueue (v : World) (i : Nat) :
    busRefPreserved v (incStopQueue v i) :=
  busRef_mapEntity i _ (fun e => by cases e.stopData <;> rfl)
    (fun e => by cases e.stopData <;> rfl)

theorem busRef_pushEvent (v : World) (ev : GameEvent) :
    busRefPreserved v (pushEvent v ev) :=
  busRef_of_entities_eq rfl

/-- One entity's bus-logic step preserves the index-bound invariant. -/
theorem busLogicProcess_bounds (dt : ℚ) (w : World) (eid : Nat)
    (hw : allBusesInBounds w) : allBusesInBounds (busLogicProcess dt w eid) := by
  unfold busLogicProcess
  cases hbd : getBusData w eid with
  | none => exact hw
  | some data =>
    cases hbv : getBusVel w eid with
    | none => exact hw
    | some vel =>
      obtain ⟨e₀, he₀, hbd₀⟩ := getEntity_of_getBusData hbd
      have hok : stopIndexOk w.routes data := hw e₀ he₀ data hbd₀
      simp only
      by_cases h1 : data.state = BusState.stopped
      · rw [if_pos h1]
        by_cases h2 : data.waitTimer - dt ≤ 0
        · rw [if_pos h2]
          have hok' : stopIndexOk w.routes { data with waitTimer := data.waitTimer - dt } :=
            hok
          have hadv := advance_bounds w { data with waitTimer := data.waitTimer - dt } vel hok'
          have hset := allBounds_setBusData hw eid _ hadv.1
          exact allBounds_transfer (busRef_setBusVel _ eid _) hset
        · rw [if_neg h2]
          exact allBounds_setBusData hw eid _ hok
      · rw [if_neg h1]
        by_cases h3 : data.state = BusState.idle ∧ data.routeId.isSome = true
        · rw [if_pos h3]
          have hadv := advance_bounds w data vel hok
          have hset := allBounds_setBusData hw eid _ hadv.1
          exact allBounds_transfer (busRef_setBusVel _ eid _) hset
        · rw [if_neg h3]
          exact hw

theorem busLogicUpdate_bounds (dt : ℚ) (w : World) (hw : allBusesInBounds w) :
    allBusesInBounds (busLogicUpdate dt w) := by
  unfold busLogicUpdate
  exact foldl_world_preserves allBusesInBounds _
    (fun v i hv => busLogicProcess_bounds dt v i hv) _ w hw

/-- `getTargetStopPosition` only initialises the module caches: the entity
store itself is untouched. -/
theorem getTargetStopPosition_entities (w : World) (routeId : Option String)
    (stopIndex : Int) :
    (getTargetStopPosition w routeId stopIndex).2.entities = w.entities := by
  unfold getTargetStopPosition
  cases routeId with
  | none => rfl
  | some rid =>
    simp only
    split
    · rfl
    · split_ifs <;> (try rfl) <;> (split <;> rfl)

/-- One entity's movement step never changes a bus's stop index, its route
reference, or the route table. -/
theorem busRef_busMovementProcess (m : JsMath) (dt : ℚ) (w : World) (eid : Nat) :
    busRefPreserved w (busMovementProcess m dt w eid) := by
  unfold busMovementProcess
  cases hp : getBusPos w eid with
  | none => exact busRef_refl w
  | some pos =>
    cases hv : getBusVel w eid with
    | none => exact busRef_refl w
    | some vel =>
      cases hd : getBusData w eid with
      | none => exact busRef_refl w
      | some data =>
        simp only
        by_cases hst : data.state = BusState.movingToStop
        · rw [if_pos hst]
          obtain ⟨e₀, he₀, hbd₀⟩ := getEntity_of_getBusData hd
          have hwc : busRefPreserved w
              (getTargetStopPosition w data.routeId data.currentStopIndex).2 :=
            busRef_of_entities_eq
              (getTargetStopPosition_entities w data.routeId data.currentStopIndex)
          cases ht : (getTargetStopPosition w data.routeId data.currentStopIndex).1 with
          | none =>
            refine busRef_trans (busRef_setBusData hwc eid _ ?_) (busRef_setBusVel _ eid _)
            exact ⟨e₀, he₀, data, hbd₀, rfl, rfl⟩
          | some targetStopPos =>
            simp only
            split_ifs with hdist
            · refine busRef_trans (busRef_setBusData
                (busRef_trans hwc (busRef_setBusPos _ eid _)) eid _ ?_)
                (busRef_setBusVel _ eid _)
              exact ⟨e₀, he₀, data, hbd₀, rfl, rfl⟩
            · exact busRef_trans (busRef_trans hwc (busRef_setBusVel _ eid _))
                (busRef_setBusPos _ eid _)
        · rw [if_neg hst]
          exact busRef_refl w

/-- The whole movement pass preserves every bus's index/route reference. -/
theorem busRef_busMovementUpdate (m : JsMath) (dt : ℚ) (w : World) :
    busRefPreserved w (busMovementUpdate m dt w) := by
  unfold busMovementUpdate
  exact busRef_foldl _ (fun v i => busRef_busMovementProcess m dt v i) _ w

/-- Rider creation touches only the id counter, the fresh entity and its NPC
components: every bus record and the route table survive unchanged. -/
theorem busRef_spawnNPC (stopId : String) (x y now : ℚ) (w : World)
    (rng : List ℚ) : busRefPreserved w (spawnNPC stopId x y now w rng).1 := by
  unfold spawnNPC createEntity
  by_cases h : w.maxEntities ≤ w.entities.length
  · rw [if_pos h]
    exact busRef_refl w
  · rw [if_neg h]
    exact busRef_trans (busRef_append_empty w w.nextEntityId (w.nextEntityId + 1))
      (busRef_trans (busRef_setNpcPos _ _ _) (busRef_setNpcData _ _ _))

/-- One stop's spawner step preserves every bus's index/route reference. -/
theorem busRef_spawnerProcessStop (period : TimePeriod) (now dt : ℚ)
    (acc : World × List ℚ) (eid : Nat) :
    busRefPreserved acc.1 (spawnerProcessStop period now dt acc eid).1 := by
  unfold spawnerProcessStop
  simp only
  cases hsd : getStopData acc.1 eid with
  | none => exact busRef_refl acc.1
  | some stopData =>
    cases hsp : getStopPos acc.1 eid with
    | none => exact busRef_refl acc.1
    | some stopPos =>
      simp only
      by_cases h1 : 100 ≤ stopData.waitingPassengers
      · rw [if_pos h1]
        exact busRef_refl acc.1
      · rw [if_neg h1]
        by_cases h3 : jsOr (stopData.spawnRates.get period) 5 ≤
            (mapGet (if (mapGet acc.1.spawnTimers stopData.id).isNone = true then
              mapSet acc.1.spawnTimers stopData.id 0 else acc.1.spawnTimers)
              stopData.id).getD 0 + dt
        · rw [if_pos h3]
          set wts : World := { acc.1 with spawnTimers := (if (mapGet acc.1.spawnTimers stopData.id).isNone = true then mapSet acc.1.spawnTimers stopData.id 0 else acc.1.spawnTimers) } with hwts
          set w2 : World := incStopQueue (spawnNPC stopData.id stopPos.x stopPos.y now wts acc.2).1 eid with hw2
          have s1 : busRefPreserved acc.1 wts := busRef_of_entities_eq rfl
          have s2 := busRef_spawnNPC stopData.id stopPos.x stopPos.y now wts acc.2
          have s3 := busRef_incStopQueue
            (spawnNPC stopData.id stopPos.x stopPos.y now wts acc.2).1 eid
          have s4 : busRefPreserved w2
              { w2 with spawnTimers := mapSet w2.spawnTimers stopData.id 0 } :=
            busRef_of_entities_eq rfl
          exact busRef_trans s1 (busRef_trans s2 (busRef_trans s3 s4))
        · rw [if_neg h3]
          exact busRef_of_entities_eq rfl

theorem busRef_spawnerFold (period : TimePeriod) (now dt : ℚ) :
    ∀ (l : List Nat) (acc : World × List ℚ),
      busRefPreserved acc.1 (l.foldl (spawnerProcessStop period now dt) acc).1
  | [], acc => busRef_refl acc.1
  | i :: l, acc => by
    rw [List.foldl_cons]
    exact busRef_trans (busRef_spawnerProcessStop period now dt acc i)
      (busRef_spawnerFold period now dt l (spawnerProcessStop period now dt acc i))

theorem busRef_npcSpawnerUpdate (period : TimePeriod) (now dt : ℚ) (w : World)
    (rng : List ℚ) : busRefPreserved w (npcSpawnerUpdate period now dt w rng).1 := by
  unfold npcSpawnerUpdate
  exact busRef_spawnerFold period now dt _ (w, rng)

/-- The break-on-first-hit queue write keeps the route table intact. -/
theorem updateStopQueueEntities_routes (stopId : String) (delta : Int) :
    ∀ l : List Entity,
      (updateStopQueueEntities stopId delta l).filterMap (fun e => e.routeData) =
        l.filterMap (fun e => e.routeData)
  | [] => rfl
  | e :: l => by
    unfold updateStopQueueEntities
    cases hsd : e.stopData with
    | none =>
      simp only [List.filterMap_cons]
      cases e.routeData <;>
        simp [updateStopQueueEntities_routes stopId delta l]
    | some sd =>
      simp only
      by_cases h : sd.id = stopId
      · rw [if_pos h]
        simp only [List.filterMap_cons]
      · rw [if_neg h]
        simp only [List.filterMap_cons]
        cases e.routeData <;>
          simp [updateStopQueueEntities_routes stopId delta l]

/-- Every entity surviving the queue write carries the bus record of some
original entity (its own: only stop data is rewritten). -/
theorem updateStopQueueEntities_mem (stopId : String) (delta : Int) :
    ∀ l : List Entity, ∀ e₂ ∈ updateStopQueueEntities stopId delta l,
      ∃ e₁ ∈ l, e₂.busData = e₁.busData
  | [], e₂, h => absurd h (List.not_mem_nil e₂)
  | e :: l, e₂, h => by
    unfold updateStopQueueEntities at h
    cases hsd : e.stopData with
    | none =>
      rw [hsd] at h
      simp only at h
      rcases List.mem_cons.mp h with he | h'
      · exact ⟨e, List.mem_cons_self e l, by rw [he]⟩
      · obtain ⟨e₁, he₁, hb⟩ := updateStopQueueEntities_mem stopId delta l e₂ h'
        exact ⟨e₁, List.mem_cons_of_mem e he₁, hb⟩
    | some sd =>
      rw [hsd] at h
      simp only at h
      by_cases hid : sd.id = stopId
      · rw [if_pos hid] at h
        rcases List.mem_cons.mp h with he | h'
        · subst he
          exact ⟨e, List.mem_cons_self e l, rfl⟩
        · exact ⟨e₂, List.mem_cons_of_mem e h', rfl⟩
      · rw [if_neg hid] at h
        rcases List.mem_cons.mp h with he | h'
        · exact ⟨e, List.mem_cons_self e l, by rw [he]⟩
        · obtain ⟨e₁, he₁, hb⟩ := updateStopQueueEntities_mem stopId delta l e₂ h'
          exact ⟨e₁, List.mem_cons_of_mem e he₁, hb⟩

theorem busRef_updateStopQueue (v : World) (stopId : String) (delta : Int) :
    busRefPreserved v (updateStopQueue v stopId delta) := by
  refine ⟨?_, ?_⟩
  · show (updateStopQueueEntities stopId delta v.entities).filterMap _ =
      v.entities.filterMap _
    exact updateStopQueueEntities_routes stopId delta v.entities
  · intro e₂ he₂ d₂ hd₂
    obtain ⟨e₁, he₁, hb⟩ := updateStopQueueEntities_mem stopId delta v.entities e₂ he₂
    refine ⟨e₁, he₁, d₂, ?_, rfl, rfl⟩
    rw [← hb]
    exact hd₂

/-- One rider's boarding writes (NPC data, queue decrement, teleport, event)
preserve every bus record and the route table. -/
theorem busRef_boardStep (w : World) (npcId busEid : Nat) (stopId : String)
    (nd : NPCDataComponent) (np : NPCPositionComponent) (ev : GameEvent) :
    busRefPreserved w
      (pushEvent
        (match getBusPos (updateStopQueue (setNpcData w npcId nd) stopId (-1)) busEid with
          | some busPos => setNpcPos (updateStopQueue (setNpcData w npcId nd) stopId (-1))
              npcId { np with x := busPos.x, y := busPos.y }
          | none => updateStopQueue (setNpcData w npcId nd) stopId (-1)) ev) := by
  refine busRef_trans (busRef_setNpcData w npcId nd) ?_
  refine busRef_trans (busRef_updateStopQueue _ stopId (-1)) ?_
  refine busRef_trans ?_ (busRef_pushEvent _ ev)
  cases getBusPos (updateStopQueue (setNpcData w npcId nd) stopId (-1)) busEid with
  | none => exact busRef_refl _
  | some busPos => exact busRef_setNpcPos _ npcId _

/-- The boarding loop preserves bus records and copies the mutable bus-data
reference's stop index and route id through to its returned record. -/
theorem loadLoop_spec (busEid : Nat) (stopId : String) :
    ∀ (npcIds : List Nat) (w : World) (bd : BusDataComponent),
      busRefPreserved w (loadLoop busEid stopId npcIds w bd).1 ∧
      (loadLoop busEid stopId npcIds w bd).2.currentStopIndex = bd.currentStopIndex ∧
      (loadLoop busEid stopId npcIds w bd).2.routeId = bd.routeId
  | [], w, _ => ⟨busRef_refl w, rfl, rfl⟩
  | npcId :: rest, w, bd => by
    unfold loadLoop
    by_cases hcap : bd.capacity ≤ bd.passengers
    · rw [if_pos hcap]
      exact ⟨busRef_refl w, rfl, rfl⟩
    · rw [if_neg hcap]
      cases hnd : getNpcData w npcId with
      | none => exact loadLoop_spec busEid stopId rest w bd
      | some npcData =>
        cases hnp : getNpcPos w npcId with
        | none => exact loadLoop_spec busEid stopId rest w bd
        | some npcPos =>
          simp only
          by_cases hwait : npcData.state = NPCState.waiting ∧
            npcData.currentStopId = some stopId
          · rw [if_pos hwait]
            refine ⟨busRef_trans (busRef_boardStep w npcId busEid stopId _ _ _)
              (loadLoop_spec busEid stopId rest _ _).1,
              (loadLoop_spec busEid stopId rest _ _).2.1,
              (loadLoop_spec busEid stopId rest _ _).2.2⟩
          · rw [if_neg hwait]
            exact loadLoop_spec busEid stopId rest w bd

/-- Alighting preserves bus records (it rewrites rider components and the
event log) and copies the index and route id into its returned record. -/
theorem unload_spec (w : World) (busEid : Nat) (bd : BusDataComponent)
    (stopId : String) :
    busRefPreserved w (unloadPassengers w busEid bd stopId).1 ∧
    (unloadPassengers w busEid bd stopId).2.currentStopIndex = bd.currentStopIndex ∧
    (unloadPassengers w busEid bd stopId).2.routeId = bd.routeId := by
  unfold unloadPassengers
  simp only
  have hmap : ∀ e : Entity,
      (unloadEntity busEid (isFinalStopForRoute w bd) stopId e).routeData = e.routeData ∧
      (unloadEntity busEid (isFinalStopForRoute w bd) stopId e).busData = e.busData := by
    intro e
    unfold unloadEntity
    by_cases h : alightsHere busEid (isFinalStopForRoute w bd) stopId e
    · rw [if_pos h]
      cases e.npcData with
      | none => exact ⟨rfl, rfl⟩
      | some nd =>
        cases e.npcPos with
        | none => exact ⟨rfl, rfl⟩
        | some np => exact ⟨rfl, rfl⟩
    · rw [if_neg h]
      exact ⟨rfl, rfl⟩
  split_ifs with hc
  · exact ⟨busRef_of_map _ rfl (fun e => (hmap e).1) (fun e => (hmap e).2), rfl, rfl⟩
  · exact ⟨busRef_of_map _ rfl (fun e => (hmap e).1) (fun e => (hmap e).2), rfl, rfl⟩

theorem loadPassengers_spec (w : World) (busEid : Nat) (bd : BusDataComponent)
    (stopId : String) :
    busRefPreserved w (loadPassengers w busEid bd stopId).1 ∧
    (loadPassengers w busEid bd stopId).2.currentStopIndex = bd.currentStopIndex ∧
    (loadPassengers w busEid bd stopId).2.routeId = bd.routeId := by
  unfold loadPassengers
  split_ifs with h
  · exact ⟨busRef_refl w, rfl, rfl⟩
  · exact loadLoop_spec busEid stopId _ w bd

/-- One bus's boarding/alighting step preserves every bus's index/route
reference: the written-back record copies them from the record it read. -/
theorem busRef_npcInteractionProcess (w : World) (busEid : Nat) :
    busRefPreserved w (npcInteractionProcess w busEid) := by
  unfold npcInteractionProcess
  cases hbd : getBusData w busEid with
  | none => exact busRef_refl w
  | some bd =>
    simp only
    by_cases hst : bd.state = BusState.stopped
    · rw [if_pos hst]
      cases hcs : getCurrentStopId w bd with
      | none => exact busRef_refl w
      | some stopId =>
        simp only
        obtain ⟨e₀, he₀, hbd₀⟩ := getEntity_of_getBusData hbd
        have hu := unload_spec w busEid bd stopId
        by_cases hf : isFinalStopForRoute w bd = true
        · rw [if_pos hf]
          exact busRef_setBusData hu.1 busEid _ ⟨e₀, he₀, bd, hbd₀, hu.2.1, hu.2.2⟩
        · rw [if_neg hf]
          have hl := loadPassengers_spec (unloadPassengers w busEid bd stopId).1 busEid
            (unloadPassengers w busEid bd stopId).2 stopId
          exact busRef_setBusData (busRef_trans hu.1 hl.1) busEid _
            ⟨e₀, he₀, bd, hbd₀, hl.2.1.trans hu.2.1, hl.2.2.trans hu.2.2⟩
    · rw [if_neg hst]
      exact busRef_refl w

theorem busRef_npcInteractionUpdate (w : World) :
    busRefPreserved w (npcInteractionUpdate w) := by
  unfold npcInteractionUpdate
  exact busRef_foldl _ (fun v i => busRef_npcInteractionProcess v i) _ w

/-- A whole fixed logic tick keeps every bus's stop index inside the bounds
of its resolved route. -/
theorem logicTick_bounds (m : JsMath) (period : TimePeriod) (now dt : ℚ)
    (w : World) (rng : List ℚ) (hw : allBusesInBounds w) :
    allBusesInBounds (logicTick m period now dt w rng) := by
  unfold logicTick
  have h1 := allBounds_transfer (busRef_busMovementUpdate m dt w) hw
  have h2 := busLogicUpdate_bounds dt _ h1
  have h3 := allBounds_transfer (busRef_npcSpawnerUpdate period now dt _ rng) h2
  exact allBounds_transfer (busRef_npcInteractionUpdate _) h3

/-- The executable bound check decides the index-bound invariant. -/
theorem allBusesInBoundsB_iff (w : World) :
    allBusesInBoundsB w = true ↔ allBusesInBounds w := by
  unfold allBusesInBoundsB allBusesInBounds
  rw [List.all_eq_true]
  constructor
  · intro h e he d hd rid r h1 h2
    have hb := h e he
    rw [hd] at hb
    simp only at hb
    rw [h1] at hb
    simp only at hb
    unfold findRouteById at hb
    rw [h2] at hb
    simp only at hb
    exact of_decide_eq_true hb
  · intro h e he
    cases hd : e.busData with
    | none => rfl
    | some d =>
      simp only
      cases h1 : d.routeId with
      | none => rfl
      | some rid =>
        simp only
        cases h2 : findRouteById w rid with
        | none => rfl
        | some r =>
          simp only
          exact decide_eq_true (h e he d hd rid r h1 (by unfold findRouteById at h2; exact h2))

/-- C7: a newly created vehicle starts at stop index 0; a full logic tick
preserves the invariant that every vehicle whose route id resolves has
`0 ≤ stopIndex < routeLength`; and advancing past the last index wraps to 0
(re-entering `MOVING_TO_STOP`) on a looping route and clamps to the last
index (entering `IDLE`) on a non-looping route. -/
theorem stop_index_bounds_preserved
    (m : JsMath) (period : TimePeriod) (now dt : ℚ) (w : World) (rng : List ℚ)
    (rid bid : String) (sx sy : ℚ)
    (hw : allBusesInBounds w) :
    allBusesInBounds (logicTick m period now dt w rng) ∧
    (createBusOnRoute rid bid sx sy).2.2.currentStopIndex = 0 ∧
    (∀ (d : BusDataComponent) (vel : BusVelocityComponent)
       (r : RouteDataComponent) (rid₀ : String),
      d.routeId = some rid₀ → findRouteById w rid₀ = some r →
      (r.stopIds.length : Int) ≤ d.currentStopIndex + 1 →
      0 < (r.stopIds.length : Int) →
      ((r.loop = true →
          (advanceToNextStop w d vel).1.currentStopIndex = 0 ∧
          (advanceToNextStop w d vel).1.state = BusState.movingToStop) ∧
       (r.loop = false →
          (advanceToNextStop w d vel).1.currentStopIndex = (r.stopIds.length : Int) - 1 ∧
          (advanceToNextStop w d vel).1.state = BusState.idle))) := by
  refine ⟨logicTick_bounds m period now dt w rng hw, rfl, ?_⟩
  intro d vel r rid₀ hrid hf hge hpos
  unfold advanceToNextStop
  rw [hrid]
  simp only
  rw [show findRouteById w rid₀ = some r from hf]
  simp only
  rw [if_neg (by omega : ¬((r.stopIds.length : Int) = 0))]
  rw [if_pos hge]
  constructor
  · intro hl
    rw [if_pos hl]
    exact ⟨rfl, rfl⟩
  · intro hl
    rw [if_neg (show ¬(r.loop = true) by rw [hl]; exact Bool.false_ne_true)]
    exact ⟨rfl, rfl⟩

theorem stop_index_bounds_preserved_witness :
    allBusesInBounds freshBusWorld ∧
    (allBusesInBounds (logicTick idMath TimePeriod.morning 0 (1/60) freshBusWorld []) ∧
     (createBusOnRoute ("r9") ("bus_9") 0 0).2.2.currentStopIndex = 0 ∧
     (∀ (d : BusDataComponent) (vel : BusVelocityComponent)
        (r : RouteDataComponent) (rid₀ : String),
       d.routeId = some rid₀ → findRouteById freshBusWorld rid₀ = some r →
       (r.stopIds.length : Int) ≤ d.currentStopIndex + 1 →
       0 < (r.stopIds.length : Int) →
       ((r.loop = true →
           (advanceToNextStop freshBusWorld d vel).1.currentStopIndex = 0 ∧
           (advanceToNextStop freshBusWorld d vel).1.state = BusState.movingToStop) ∧
        (r.loop = false →
           (advanceToNextStop freshBusWorld d vel).1.currentStopIndex =
             (r.stopIds.length : Int) - 1 ∧
           (advanceToNextStop freshBusWorld d vel).1.state = BusState.idle)))) := by
  have hw : allBusesInBounds freshBusWorld :=
    (allBusesInBoundsB_iff freshBusWorld).mp (by decide)
  exact ⟨hw, stop_index_bounds_preserved idMath TimePeriod.morning 0 (1/60)
    freshBusWorld [] ("r9") ("bus_9") 0 0 hw⟩

end BusControl
